import Mathlib

/-!
Verification of the amazon-price-tracker core (`amazon_tracker.py`) against its
natural-language specification.

The Python source is shallowly embedded: pure functions become Lean functions,
Python dicts become association lists, Python strings become `String`
(sequences of unicode code points, matching Python `len`/slicing), Python ints
become `Int`/`Nat`, and Python floats are modelled by exact rationals `ℚ`
(the places where IEEE rounding could diverge from the exact rational are
one-decimal formatting ties, which no statement here touches).  The standard
library collaborators `hashlib.sha256` and `hmac` are embedded as executable
byte-level implementations of SHA-256 and HMAC-SHA256 over `List Nat`
(bytes), and `re.search` calls are embedded as executable matchers for the
three concrete patterns the source uses, with the same leftmost/greedy
backtracking order.
-/

namespace AmazonTracker

/- Batteries marks the rational-number arithmetic `@[irreducible]`, which
blocks `decide`-style evaluation of concrete instances; the embedding here
relies on evaluating rationals, so restore default reducibility. -/
attribute [local semireducible] Rat.add Rat.mul Rat.sub Rat.inv

/-! ## Bytes, SHA-256, HMAC-SHA256 (embedding of `hashlib`/`hmac`) -/

/-- Truncate to 32 bits. -/
def w32 (n : Nat) : Nat := n % 4294967296

/-- 32-bit right rotation. -/
def rotr32 (k x : Nat) : Nat := w32 ((x >>> k) ||| (x <<< (32 - k)))

/-- 32-bit bitwise complement. -/
def not32 (x : Nat) : Nat := Nat.xor x 4294967295

def shaCh (x y z : Nat) : Nat := Nat.xor (x &&& y) (not32 x &&& z)

def shaMaj (x y z : Nat) : Nat := Nat.xor (Nat.xor (x &&& y) (x &&& z)) (y &&& z)

def bigSigma0 (x : Nat) : Nat := Nat.xor (Nat.xor (rotr32 2 x) (rotr32 13 x)) (rotr32 22 x)

def bigSigma1 (x : Nat) : Nat := Nat.xor (Nat.xor (rotr32 6 x) (rotr32 11 x)) (rotr32 25 x)

def smallSigma0 (x : Nat) : Nat := Nat.xor (Nat.xor (rotr32 7 x) (rotr32 18 x)) (x >>> 3)

def smallSigma1 (x : Nat) : Nat := Nat.xor (Nat.xor (rotr32 17 x) (rotr32 19 x)) (x >>> 10)

/-- The SHA-256 round constants (FIPS 180-4, in decimal). -/
def shaK : List Nat :=
  [1116352408, 1899447441, 3049323471, 3921009573, 961987163, 1508970993,
   2453635748, 2870763221, 3624381080, 310598401, 607225278, 1426881987,
   1925078388, 2162078206, 2614888103, 3248222580, 3835390401, 4022224774,
   264347078, 604807628, 770255983, 1249150122, 1555081692, 1996064986,
   2554220882, 2821834349, 2952996808, 3210313671, 3336571891, 3584528711,
   113926993, 338241895, 666307205, 773529912, 1294757372, 1396182291,
   1695183700, 1986661051, 2177026350, 2456956037, 2730485921, 2820302411,
   3259730800, 3345764771, 3516065817, 3600352804, 4094571909, 275423344,
   430227734, 506948616, 659060556, 883997877, 958139571, 1322822218,
   1537002063, 1747873779, 1955562222, 2024104815, 2227730452, 2361852424,
   2428436474, 2756734187, 3204031479, 3329325298]

/-- The SHA-256 initial hash state (FIPS 180-4, in decimal). -/
def shaH0 : List Nat :=
  [1779033703, 3144134277, 1013904242, 2773480762,
   1359893119, 2600822924, 528734635, 1541459225]

/-- Next word of the message schedule, from the words produced so far. -/
def scheduleNext (ws : List Nat) : Nat :=
  let g := fun k => ws.getD (ws.length - k) 0
  w32 (smallSigma1 (g 2) + g 7 + smallSigma0 (g 15) + g 16)

/-- Extend the 16-word block to the 64-word message schedule. -/
def extendSchedule : Nat → List Nat → List Nat
  | 0, ws => ws
  | n + 1, ws => extendSchedule n (ws ++ [scheduleNext ws])

/-- One SHA-256 compression round on the 8-word working state. -/
def shaRound (st : List Nat) (k w : Nat) : List Nat :=
  match st with
  | [a, b, c, d, e, f, g, h] =>
    let t1 := w32 (h + bigSigma1 e + shaCh e f g + k + w)
    let t2 := w32 (bigSigma0 a + shaMaj a b c)
    [w32 (t1 + t2), a, b, c, w32 (d + t1), e, f, g]
  | _ => st

/-- Big-endian decoding of bytes into 32-bit words. -/
def bytesToWords : List Nat → List Nat
  | b0 :: b1 :: b2 :: b3 :: rest => (((b0 * 256 + b1) * 256 + b2) * 256 + b3) :: bytesToWords rest
  | _ => []

/-- Compress one 64-byte block (given as its 16 words) into the hash state. -/
def shaCompressBlock (h : List Nat) (block : List Nat) : List Nat :=
  let ws := extendSchedule 48 block
  let st := (shaK.zip ws).foldl (fun s kw => shaRound s kw.1 kw.2) h
  (h.zip st).map (fun p => w32 (p.1 + p.2))

/-- Big-endian 8-byte encoding of a length. -/
def be8 (n : Nat) : List Nat :=
  (List.range 8).map (fun i => (n >>> (8 * (7 - i))) % 256)

/-- SHA-256 padding: a 0x80 byte, zeros to 56 mod 64, then the bit length. -/
def shaPad (msg : List Nat) : List Nat :=
  let len := msg.length
  let zeros := (64 + 56 - ((len + 1) % 64)) % 64
  msg ++ 128 :: List.replicate zeros 0 ++ be8 (8 * len)

/-- Split into 64-byte blocks. -/
def chunks64 : List Nat → List (List Nat)
  | [] => []
  | b :: rest => (b :: rest).take 64 :: chunks64 ((b :: rest).drop 64)
termination_by l => l.length
decreasing_by simp [List.length_drop]; omega

/-- SHA-256 of a byte list, as the 32 digest bytes. -/
def sha256 (msg : List Nat) : List Nat :=
  let blocks := chunks64 (shaPad msg)
  let h := blocks.foldl (fun h b => shaCompressBlock h (bytesToWords b)) shaH0
  h.foldr (fun w acc => (w >>> 24) % 256 :: (w >>> 16) % 256 :: (w >>> 8) % 256 :: w % 256 :: acc) []

/-- HMAC-SHA256 of a message under a key, as the 32 digest bytes. -/
def hmacSha256 (key msg : List Nat) : List Nat :=
  let k0 := if 64 < key.length then sha256 key else key
  let k := k0 ++ List.replicate (64 - k0.length) 0
  let ipad := k.map (fun b => Nat.xor b 54)
  let opad := k.map (fun b => Nat.xor b 92)
  sha256 (opad ++ sha256 (ipad ++ msg))

/-- The character for decimal digit `d`. -/
def digitChar (d : Nat) : Char := Char.ofNat (48 + d)

/-- Lowercase hex digit character. -/
def hexDigitChar (d : Nat) : Char := if d < 10 then Char.ofNat (48 + d) else Char.ofNat (87 + d)

/-- Lowercase hex encoding of a byte list (Python `.hexdigest()`). -/
def hexOfBytes (bs : List Nat) : String :=
  String.mk (bs.foldr (fun b acc => hexDigitChar (b / 16) :: hexDigitChar (b % 16) :: acc) [])

/-- UTF-8 encoding of one code point. -/
def utf8Char (c : Char) : List Nat :=
  let n := c.toNat
  if n < 128 then [n]
  else if n < 2048 then [192 + n / 64, 128 + n % 64]
  else if n < 65536 then [224 + n / 4096, 128 + (n / 64) % 64, 128 + n % 64]
  else [240 + n / 262144, 128 + (n / 4096) % 64, 128 + (n / 64) % 64, 128 + n % 64]

/-- UTF-8 encoding of a string (Python `.encode('utf-8')`). -/
def utf8Bytes (s : String) : List Nat :=
  s.data.foldr (fun c acc => utf8Char c ++ acc) []

/-! ## The request signer (embedding of `AmazonTracker.sign_request`)

The module-level globals `PA_API_KEY` / `PA_API_SECRET` are passed as explicit
arguments, and the wall-clock timestamp pair (`amz_date`, `datestamp`) is a
fixed input, as the claims quantify over them.  `PARTNER_TAG` is not an
argument because `sign_request` never reads it. -/

def REGION : String := "us-west-2"

def SERVICE : String := "ProductAdvertisingAPI"

def ALGORITHM : String := "AWS4-HMAC-SHA256"

/-- Python `str.join`. -/
def joinSep (sep : String) : List String → String
  | [] => ""
  | [x] => x
  | x :: y :: xs => x ++ sep ++ joinSep sep (y :: xs)

/-- Insert a header pair into a list sorted by key (code points ascending). -/
def insertPairSorted (x : String × String) : List (String × String) → List (String × String)
  | [] => [x]
  | y :: ys => if x.1 ≤ y.1 then x :: y :: ys else y :: insertPairSorted x ys

/-- Python `sorted(headers.items())`: header keys here are pairwise distinct,
so sorting the pairs by key equals Python's tuple sort. -/
def sortPairsByKey : List (String × String) → List (String × String)
  | [] => []
  | x :: xs => insertPairSorted x (sortPairsByKey xs)

/-- Insert a string into a sorted list (code points ascending). -/
def insertStrSorted (x : String) : List String → List String
  | [] => [x]
  | y :: ys => if x ≤ y then x :: y :: ys else y :: insertStrSorted x ys

/-- Python `sorted` on a list of strings. -/
def sortStrings : List String → List String
  | [] => []
  | x :: xs => insertStrSorted x (sortStrings xs)

/-- The fixed header set the signer builds (source lines 139-145), in
insertion order. -/
def signHeadersBase (host amzDate : String) : List (String × String) :=
  [("host", host),
   ("x-amz-date", amzDate),
   ("content-encoding", "amz-1.0"),
   ("content-type", "application/json; charset=utf-8"),
   ("x-amz-target", "com.amazon.paapi5.v1.ProductAdvertisingAPIv1.GetItems")]

/-- Source line 148: canonical headers. -/
def canonicalHeadersOf (headers : List (String × String)) : String :=
  joinSep "\n" ((sortPairsByKey headers).map (fun kv => kv.1 ++ ":" ++ kv.2)) ++ "\n"

/-- Source line 149: signed headers. -/
def signedHeadersOf (headers : List (String × String)) : String :=
  joinSep ";" (sortStrings (headers.map Prod.fst))

/-- Hex SHA-256 of a string's UTF-8 bytes (source lines 152, 170). -/
def sha256HexOfString (s : String) : String := hexOfBytes (sha256 (utf8Bytes s))

/-- Source lines 155-162: the canonical request. -/
def canonicalRequestOf (path canonicalHeaders signedHeaders payloadHash : String) : String :=
  joinSep "\n" ["POST", path, "", canonicalHeaders, signedHeaders, payloadHash]

/-- Source line 165: the credential scope. -/
def credentialScopeOf (datestamp : String) : String :=
  datestamp ++ "/" ++ REGION ++ "/" ++ SERVICE ++ "/aws4_request"

/-- Source lines 166-171: the string to sign. -/
def stringToSignOf (amzDate credentialScope canonicalRequest : String) : String :=
  joinSep "\n" [ALGORITHM, amzDate, credentialScope, sha256HexOfString canonicalRequest]

/-- Source line 174-175: `sign(key, msg)` helper. -/
def hmacStr (key : List Nat) (msg : String) : List Nat := hmacSha256 key (utf8Bytes msg)

/-- Source lines 177-180: the chained signing key. -/
def signingKeyOf (secret datestamp : String) : List Nat :=
  hmacStr (hmacStr (hmacStr (hmacStr (utf8Bytes ("AWS4" ++ secret)) datestamp) REGION) SERVICE)
    "aws4_request"

/-- Source line 183: the final signature. -/
def signatureOf (secret datestamp stringToSign : String) : String :=
  hexOfBytes (hmacStr (signingKeyOf secret datestamp) stringToSign)

/-- Source lines 186-191: the Authorization header value. -/
def authHeaderOf (apiKey credentialScope signedHeaders signature : String) : String :=
  ALGORITHM ++ " Credential=" ++ apiKey ++ "/" ++ credentialScope ++
    ", SignedHeaders=" ++ signedHeaders ++ ", Signature=" ++ signature

/-- Embedding of `AmazonTracker.sign_request` (source lines 126-196): returns
the header dict, in Python dict insertion order (the five base headers, then
`Authorization`). -/
def sign_request (apiKey apiSecret host path payload amzDate datestamp : String) :
    List (String × String) :=
  let headers := signHeadersBase host amzDate
  let canonicalHeaders := canonicalHeadersOf headers
  let signedHeaders := signedHeadersOf headers
  let payloadHash := sha256HexOfString payload
  let canonicalRequest := canonicalRequestOf path canonicalHeaders signedHeaders payloadHash
  let credentialScope := credentialScopeOf datestamp
  let stringToSign := stringToSignOf amzDate credentialScope canonicalRequest
  let signature := signatureOf apiSecret datestamp stringToSign
  headers ++ [("Authorization", authHeaderOf apiKey credentialScope signedHeaders signature)]

/-! ### Spec-side signer (written from spec.md §4.1 steps 3-10) -/

/-- Spec §4.1 step 3: canonical headers, sorted by name, colon-joined,
newline-joined, trailing newline. -/
def specCanonicalHeaders (headers : List (String × String)) : String :=
  joinSep "\n" ((sortPairsByKey headers).map (fun kv => kv.1 ++ ":" ++ kv.2)) ++ "\n"

/-- Spec §4.1 step 3: signed headers, semicolon-joined sorted names. -/
def specSignedHeaders (headers : List (String × String)) : String :=
  joinSep ";" (sortStrings (headers.map Prod.fst))

/-- Spec §4.1 steps 4-5: the canonical request over the payload hash. -/
def specCanonicalRequest (path : String) (headers : List (String × String))
    (payload : String) : String :=
  joinSep "\n"
    ["POST", path, "", specCanonicalHeaders headers, specSignedHeaders headers,
     hexOfBytes (sha256 (utf8Bytes payload))]

/-- Spec §4.1 step 6: the credential scope. -/
def specCredentialScope (datestamp : String) : String :=
  datestamp ++ "/" ++ REGION ++ "/" ++ SERVICE ++ "/aws4_request"

/-- Spec §4.1 step 7: the string to sign. -/
def specStringToSign (amzDate datestamp path : String) (headers : List (String × String))
    (payload : String) : String :=
  joinSep "\n"
    [ALGORITHM, amzDate, specCredentialScope datestamp,
     hexOfBytes (sha256 (utf8Bytes (specCanonicalRequest path headers payload)))]

/-- Spec §4.1 step 8: the HMAC-SHA256 chain from `"AWS4" + secret` over
date, region, service, `"aws4_request"`. -/
def specSigningKey (secret datestamp : String) : List Nat :=
  hmacSha256
    (hmacSha256
      (hmacSha256
        (hmacSha256 (utf8Bytes ("AWS4" ++ secret)) (utf8Bytes datestamp))
        (utf8Bytes REGION))
      (utf8Bytes SERVICE))
    (utf8Bytes "aws4_request")

/-- Spec §4.1 steps 9-10: the Authorization header value. -/
def specAuthorization (apiKey apiSecret host path payload amzDate datestamp : String) : String :=
  let headers := signHeadersBase host amzDate
  let signature :=
    hexOfBytes
      (hmacSha256 (specSigningKey apiSecret datestamp)
        (utf8Bytes (specStringToSign amzDate datestamp path headers payload)))
  ALGORITHM ++ " Credential=" ++ apiKey ++ "/" ++ specCredentialScope datestamp ++
    ", SignedHeaders=" ++ specSignedHeaders headers ++ ", Signature=" ++ signature

/-- C1: for every host, path, payload, fixed timestamp pair and non-empty
credentials, `sign_request` produces the AWS-Signature-V4-style result the
spec prescribes: the returned headers are the five fixed headers plus an
`Authorization` entry equal to the spec's step-3-to-10 composition; the
canonical request is the newline-join of POST, path, empty query, sorted
canonical headers (trailing newline), signed headers and payload hash; and
the signing key is the HMAC-SHA256 chain from `"AWS4" + secret`. -/
theorem sign_request_matches_spec
    (apiKey apiSecret host path payload amzDate datestamp : String)
    (hk : apiKey ≠ "") (hs : apiSecret ≠ "") :
    sign_request apiKey apiSecret host path payload amzDate datestamp =
      signHeadersBase host amzDate ++
        [("Authorization", specAuthorization apiKey apiSecret host path payload amzDate datestamp)]
    ∧ canonicalRequestOf path (canonicalHeadersOf (signHeadersBase host amzDate))
        (signedHeadersOf (signHeadersBase host amzDate)) (sha256HexOfString payload) =
      specCanonicalRequest path (signHeadersBase host amzDate) payload
    ∧ signingKeyOf apiSecret datestamp = specSigningKey apiSecret datestamp
    ∧ authHeaderOf apiKey (credentialScopeOf datestamp)
        (signedHeadersOf (signHeadersBase host amzDate))
        (signatureOf apiSecret datestamp
          (stringToSignOf amzDate (credentialScopeOf datestamp)
            (canonicalRequestOf path (canonicalHeadersOf (signHeadersBase host amzDate))
              (signedHeadersOf (signHeadersBase host amzDate)) (sha256HexOfString payload)))) =
      specAuthorization apiKey apiSecret host path payload amzDate datestamp := by
  refine ⟨rfl, rfl, rfl, rfl⟩

/-- Witness for `sign_request_matches_spec` at concrete non-empty credentials. -/
theorem sign_request_matches_spec_witness :
    ("AKID" : String) ≠ "" ∧ ("SECRET" : String) ≠ "" ∧
    sign_request "AKID" "SECRET" "webservices.amazon.co.jp" "/paapi5/getitems" "payload"
        "20250101T000000Z" "20250101" =
      signHeadersBase "webservices.amazon.co.jp" "20250101T000000Z" ++
        [("Authorization",
          specAuthorization "AKID" "SECRET" "webservices.amazon.co.jp" "/paapi5/getitems"
            "payload" "20250101T000000Z" "20250101")] := by
  refine ⟨by decide, by decide, ?_⟩
  exact (sign_request_matches_spec "AKID" "SECRET" "webservices.amazon.co.jp" "/paapi5/getitems"
    "payload" "20250101T000000Z" "20250101" (by decide) (by decide)).1

/-- C2 counterexample: with empty access key and secret (and no partner tag
read at all), `sign_request` still proceeds and produces the full signed
header set — it does not fail with any `ConfigurationError` (no such error
exists in the code). -/
theorem sign_request_empty_creds_still_signs :
    ((sign_request "" "" "webservices.amazon.co.jp" "/paapi5/getitems" "" "20250101T000000Z"
        "20250101").map Prod.fst) =
      ["host", "x-amz-date", "content-encoding", "content-type", "x-amz-target",
       "Authorization"] := by
  rfl

/-- C2 amended: `sign_request` performs no credential validation: for every
access key and secret — including empty strings — and independently of the
partner tag (which it never reads), it returns the five fixed headers plus an
`Authorization` entry; it never raises a `ConfigurationError`. -/
theorem sign_request_no_credential_validation
    (apiKey apiSecret host path payload amzDate datestamp : String) :
    ((sign_request apiKey apiSecret host path payload amzDate datestamp).map Prod.fst) =
      ["host", "x-amz-date", "content-encoding", "content-type", "x-amz-target",
       "Authorization"] := by
  rfl

/-- Witness for `sign_request_no_credential_validation` (no hypotheses, but a
concrete evaluation at empty credentials for good measure). -/
theorem sign_request_no_credential_validation_witness :
    ((sign_request "" "" "h" "/p" "" "d" "t").map Prod.fst) =
      ["host", "x-amz-date", "content-encoding", "content-type", "x-amz-target",
       "Authorization"] :=
  sign_request_no_credential_validation "" "" "h" "/p" "" "d" "t"

/-! ## Decimal formatting (embedding of Python format specs) and parsing -/

/-- `\d` of the regexes / `0`-`9`. -/
def isDig (c : Char) : Bool := 48 ≤ c.toNat && c.toNat ≤ 57

def digitVal (c : Char) : Nat := c.toNat - 48

/-- Python `int` of a digit string. -/
def parseDigits (l : List Char) : Nat := l.foldl (fun a c => 10 * a + digitVal c) 0

/-- Decimal digits, most significant first; structurally recursive on a fuel
bound so that the kernel can evaluate it (`natDigitsAux_congr` shows the fuel
does not matter once it exceeds `n`). -/
def natDigitsAux : Nat → Nat → List Char
  | 0, _ => []
  | fuel + 1, n =>
    if n < 10 then [digitChar n]
    else natDigitsAux fuel (n / 10) ++ [digitChar (n % 10)]

/-- Decimal digits of `n`, most significant first (`"0"` for 0). -/
def natDigitsCore (n : Nat) : List Char := natDigitsAux (n + 1) n

theorem natDigitsAux_congr :
    ∀ n f1 f2, n < f1 → n < f2 → natDigitsAux f1 n = natDigitsAux f2 n := by
  intro n
  induction n using Nat.strong_induction_on with
  | _ n ih =>
    intro f1 f2 h1 h2
    cases f1 with
    | zero => omega
    | succ k1 =>
      cases f2 with
      | zero => omega
      | succ k2 =>
        simp only [natDigitsAux]
        by_cases hlt : n < 10
        · simp [hlt]
        · rw [if_neg hlt, if_neg hlt,
            ih (n / 10) (Nat.div_lt_self (by omega) (by omega)) k1 k2 (by omega) (by omega)]

theorem natDigitsCore_unfold (n : Nat) :
    natDigitsCore n =
      if n < 10 then [digitChar n]
      else natDigitsCore (n / 10) ++ [digitChar (n % 10)] := by
  show natDigitsAux (n + 1) n = _
  rw [natDigitsAux]
  by_cases hlt : n < 10
  · simp [hlt]
  · rw [if_neg hlt, if_neg hlt,
      natDigitsAux_congr (n / 10) n (n / 10 + 1) (by omega)
        (Nat.lt_succ_of_le (Nat.le_refl _))]
    rfl

def natStr (n : Nat) : String := String.mk (natDigitsCore n)

/-- A thousands group, zero-padded to width 3 (`n < 1000`). -/
def pad3 (n : Nat) : List Char :=
  List.replicate (3 - (natDigitsCore n).length) '0' ++ natDigitsCore n

/-- Comma grouping, structurally recursive on a fuel bound (see
`natDigitsAux`). -/
def commaGroupAux : Nat → Nat → List Char
  | 0, _ => []
  | fuel + 1, n =>
    if n < 1000 then natDigitsCore n
    else commaGroupAux fuel (n / 1000) ++ ',' :: pad3 (n % 1000)

/-- Python `format(n, ',')`: digits in groups of three separated by commas. -/
def commaGroupCore (n : Nat) : List Char := commaGroupAux (n + 1) n

theorem commaGroupAux_congr :
    ∀ n f1 f2, n < f1 → n < f2 → commaGroupAux f1 n = commaGroupAux f2 n := by
  intro n
  induction n using Nat.strong_induction_on with
  | _ n ih =>
    intro f1 f2 h1 h2
    cases f1 with
    | zero => omega
    | succ k1 =>
      cases f2 with
      | zero => omega
      | succ k2 =>
        simp only [commaGroupAux]
        by_cases hlt : n < 1000
        · simp [hlt]
        · rw [if_neg hlt, if_neg hlt,
            ih (n / 1000) (Nat.div_lt_self (by omega) (by omega)) k1 k2 (by omega) (by omega)]

theorem commaGroupCore_unfold (n : Nat) :
    commaGroupCore n =
      if n < 1000 then natDigitsCore n
      else commaGroupCore (n / 1000) ++ ',' :: pad3 (n % 1000) := by
  show commaGroupAux (n + 1) n = _
  rw [commaGroupAux]
  by_cases hlt : n < 1000
  · simp [hlt]
  · rw [if_neg hlt, if_neg hlt,
      commaGroupAux_congr (n / 1000) n (n / 1000 + 1) (by omega)
        (Nat.lt_succ_of_le (Nat.le_refl _))]
    rfl

def commaNat (n : Nat) : String := String.mk (commaGroupCore n)

/-- Python `f"{i:,}"` on an int. -/
def commaInt (i : Int) : String := (if i < 0 then "-" else "") ++ commaNat i.natAbs

/-- The numerator of `q` rounded to one decimal place: round-to-nearest of
`10*q` (models CPython `.1f` on a nonnegative value; Python resolves exact
ties on the underlying double to even — no statement below sits on a tie).
`Rat.floor` is used rather than `⌊⌋` to keep the definition kernel-reducible;
the two agree (`round1num_eq_floor`). -/
def round1num (q : ℚ) : Nat := (Rat.floor (q * 10 + 1 / 2)).toNat

theorem round1num_eq_floor (q : ℚ) : round1num q = (⌊q * 10 + 1 / 2⌋).toNat := by
  unfold round1num
  rw [Rat.floor_def, ← Rat.floor_def']

/-- Python `f"{q:.1f}"` for nonnegative `q`. -/
def fmt1 (q : ℚ) : String :=
  String.mk (natDigitsCore (round1num q / 10) ++ '.' :: [digitChar (round1num q % 10)])

/-- Python `float` of an `intpart.fracpart` digit string, exactly. -/
def parsePointQ (ip fp : List Char) : ℚ :=
  (parseDigits ip : ℚ) + (parseDigits fp : ℚ) / 10 ^ fp.length

/-! ## Python string primitives -/

/-- Python `pat in s` (substring containment). -/
def pyContains (s pat : List Char) : Bool :=
  match s with
  | [] => pat.isEmpty
  | _ :: rest => pat.isPrefixOf s || pyContains rest pat

/-- Python `s.replace(pat, rep)`: leftmost, non-overlapping; an empty pattern
inserts `rep` at every gap. -/
def pyReplace (pat rep : List Char) : List Char → List Char
  | [] => if pat.isEmpty then rep else []
  | c :: rest =>
    if hp : pat.isEmpty then rep ++ c :: pyReplace pat rep rest
    else if pat.isPrefixOf (c :: rest) then
      rep ++ pyReplace pat rep ((c :: rest).drop pat.length)
    else c :: pyReplace pat rep rest
termination_by l => l.length
decreasing_by
  all_goals simp [List.length_drop]
  cases pat with
  | nil => simp at hp
  | cons p ps => simp

/-- Python `s.replace(pat, rep)` on `String`. -/
def pyReplaceStr (s pat rep : String) : String :=
  String.mk (pyReplace pat.data rep.data s.data)

/-! ## Embedded `re.search` for the three patterns of the source

Each matcher reproduces the leftmost-match scan and the greedy backtracking
order of the corresponding pattern.  `searchNum lit` is
`re.search(r'(\d+,?\d*)LIT', s)` returning group 1; `searchPercent` is
`re.search(r'\((\d+\.\d+)%\)', s)` returning group 1 split at the point;
`searchAvail` is `re.search(r'在庫状況: (.*) → (.*)', s)` returning the two
groups. -/

/-- Candidate lengths for a greedy `\d+` over a digit run of length `m`:
`m, m-1, ..., 1`. -/
def dplusKs : Nat → List Nat
  | 0 => []
  | k + 1 => (k + 1) :: dplusKs k

/-- Candidate lengths for a greedy `\d*` over a digit run of length `m`:
`m, m-1, ..., 0`. -/
def dstarKs : Nat → List Nat
  | 0 => [0]
  | k + 1 => (k + 1) :: dstarKs k

def headIsComma : List Char → Bool
  | c :: _ => decide (c = ',')
  | [] => false

/-- `\d*LIT` at the front of `r2`, with `pre` already captured. -/
def matchNumTail (lit pre r2 : List Char) : Option (List Char) :=
  (dstarKs (r2.takeWhile isDig).length).findSome? fun k2 =>
    if lit.isPrefixOf (r2.drop k2) then some (pre ++ r2.take k2) else none

/-- `,?\d*LIT` at the front of `r1`, with the `\d+` digits `g1` captured:
the greedy `?` tries the comma first. -/
def matchNumComma (lit g1 r1 : List Char) : Option (List Char) :=
  if headIsComma r1 then
    match matchNumTail lit (g1 ++ [',']) r1.tail with
    | some g => some g
    | none => matchNumTail lit g1 r1
  else matchNumTail lit g1 r1

/-- `(\d+,?\d*)LIT` anchored at the front of `s`. -/
def matchNumAt (lit s : List Char) : Option (List Char) :=
  (dplusKs (s.takeWhile isDig).length).findSome? fun k1 =>
    matchNumComma lit (s.take k1) (s.drop k1)

/-- `re.search(r'(\d+,?\d*)LIT', s)`, group 1. -/
def searchNum (lit : List Char) : List Char → Option (List Char)
  | [] => none
  | c :: rest =>
    match matchNumAt lit (c :: rest) with
    | some g => some g
    | none => searchNum lit rest

/-- `\.\d+%\)` continuation of the percent pattern after `k1` integer digits. -/
def matchPercentTail (r0 : List Char) (k1 : Nat) : Option (List Char × List Char) :=
  match r0.drop k1 with
  | '.' :: r1 =>
    (dplusKs (r1.takeWhile isDig).length).findSome? fun k2 =>
      match r1.drop k2 with
      | '%' :: ')' :: _ => some (r0.take k1, r1.take k2)
      | _ => none
  | _ => none

/-- `\((\d+\.\d+)%\)` anchored at the front of `s`, group 1 split at `.`. -/
def matchPercentAt (s : List Char) : Option (List Char × List Char) :=
  match s with
  | c :: r0 =>
    if c = '(' then (dplusKs (r0.takeWhile isDig).length).findSome? (matchPercentTail r0)
    else none
  | [] => none

/-- `re.search(r'\((\d+\.\d+)%\)', s)`, group 1 split at `.`. -/
def searchPercent : List Char → Option (List Char × List Char)
  | [] => none
  | c :: rest =>
    match matchPercentAt (c :: rest) with
    | some g => some g
    | none => searchPercent rest

/-- The literal `" → "` separating the availability statuses. -/
def arrowSep : List Char := [' ', '→', ' ']

/-- Split at the last occurrence of `" → "` — the greedy `(.*) → (.*)`. -/
def splitLastArrow : List Char → Option (List Char × List Char)
  | [] => none
  | c :: rest =>
    match splitLastArrow rest with
    | some (a, b) => some (c :: a, b)
    | none => if arrowSep.isPrefixOf (c :: rest) then some ([], (c :: rest).drop 3) else none

def availPat : List Char := "在庫状況: ".data

/-- `在庫状況: (.*) → (.*)` anchored at the front of `s` (the `.*` groups do
not cross a newline). -/
def matchAvailAt (s : List Char) : Option (List Char × List Char) :=
  if availPat.isPrefixOf s then
    splitLastArrow ((s.drop availPat.length).takeWhile (fun c => c ≠ '\n'))
  else none

/-- `re.search(r'在庫状況: (.*) → (.*)', s)`, the two groups. -/
def searchAvail : List Char → Option (List Char × List Char)
  | [] => none
  | c :: rest =>
    match matchAvailAt (c :: rest) with
    | some g => some g
    | none => searchAvail rest

/-! ## Data model -/

/-- The normalized output of `parse_pa_api_response` for one item:
`title`/`price`/`availability`/`detail_page_url` (source lines 269-274).
The parser always fills `availability` with a string (default `"不明"`),
so it is not optional here. -/
structure ItemRecord where
  title : String
  price : Option Int
  availability : String
  detail_page_url : String
deriving DecidableEq

/-- One `price_history` entry: the dict `price`/`timestamp` of source
lines 309-314 and 374-377. -/
structure PriceObs where
  price : Option Int
  timestamp : String
deriving DecidableEq

/-- One tracked product record (source lines 302-315). -/
structure TrackedProduct where
  asin : String
  name : String
  url : String
  last_price : Option Int
  last_availability : Option String
  last_checked : String
  price_history : List PriceObs
deriving DecidableEq

/-! ## Change detector (embedding of the per-product body of
`check_products`, source lines 355-401) -/

/-- Source line 373: `(diff / last_price) * 100 if last_price > 0 else 0`,
as an exact rational. -/
def priceChangePercent (cp lp : Int) : ℚ :=
  if 0 < lp then ((cp - lp : Int) : ℚ) / (lp : ℚ) * 100 else 0

/-- Source line 380: the arrow half of the price-change text. -/
def priceChangeBody (cp lp : Int) : String :=
  if 0 < cp - lp then "⬆️ " ++ commaNat (cp - lp).natAbs ++ "円上昇"
  else "⬇️ " ++ commaNat (cp - lp).natAbs ++ "円下落"

/-- Source line 381: the percent half of the price-change text. -/
def percentTextOf (cp lp : Int) : String := "(" ++ fmt1 |priceChangePercent cp lp| ++ "%)"

/-- Source line 383: the full price-change entry appended to `changes`. -/
def priceChangeText (cp lp : Int) : String :=
  "価格変動: " ++ priceChangeBody cp lp ++ " " ++ percentTextOf cp lp

/-- Source line 388: the availability-change entry appended to `changes`. -/
def availChangeText (la ca : String) : String := "在庫状況: " ++ la ++ " → " ++ ca

/-- Source line 371: the price-change condition. -/
def priceFires (curP lastP : Option Int) : Bool :=
  match curP, lastP with
  | some cp, some lp => decide (cp ≠ lp)
  | _, _ => false

/-- Source line 387: the availability-change condition.  The fresh
availability from the parser is always a string, so the code's
`current_availability is not None` test is identically true. -/
def availFires (lastA : Option String) (curA : String) : Bool :=
  match lastA with
  | some la => decide (curA ≠ la)
  | none => false

/-- The `changes` list built for one product: price entry first, then
availability entry (source lines 368-389). -/
def detectChangeStrings (lastP : Option Int) (lastA : Option String) (curP : Option Int)
    (curA : String) : List String :=
  (match curP, lastP with
   | some cp, some lp => if cp ≠ lp then [priceChangeText cp lp] else []
   | _, _ => [])
  ++ (match lastA with
      | some la => if curA ≠ la then [availChangeText la curA] else []
      | none => [])

/-- One iteration of the product loop of `check_products` (source lines
355-401): `fresh = none` is the `asin not in updated_products` lookup miss.
Returns the updated product state and the `changes` list handed to
`post_to_twitter`. -/
def checkProduct (now : String) (p : TrackedProduct) (fresh : Option ItemRecord) :
    TrackedProduct × List String :=
  match fresh with
  | none => (p, [])
  | some r =>
    let changes := detectChangeStrings p.last_price p.last_availability r.price r.availability
    let p1 :=
      if priceFires r.price p.last_price then
        { p with price_history := p.price_history ++ [{ price := r.price, timestamp := now }] }
      else p
    let p2 :=
      if changes.isEmpty then p1
      else { p1 with last_price := r.price, last_availability := some r.availability,
                     last_checked := now }
    (p2, changes)

/-! ## Templates (source lines 85-102; `.format` patterns are embedded as the
functions of their interpolated arguments) -/

structure PostTemplate where
  title : String
  price_up : Nat → ℚ → String
  price_down : Nat → ℚ → String
  availability_change : String → String → String
  current_price : Int → String
  footer : String

/-- The built-in `"default"` template. -/
def defaultTemplate : PostTemplate where
  title := "【Amazon価格・在庫変動】"
  price_up := fun diff percent => "⬆️ " ++ commaNat diff ++ "円上昇 (" ++ fmt1 percent ++ "%)"
  price_down := fun diff percent => "⬇️ " ++ commaNat diff ++ "円下落 (" ++ fmt1 percent ++ "%)"
  availability_change := fun old new => "在庫状況: " ++ old ++ " → " ++ new
  current_price := fun price => "現在価格: " ++ commaInt price ++ "円"
  footer := ""

/-- The built-in `"flash_sale"` template. -/
def flashSaleTemplate : PostTemplate where
  title := "🔥【緊急値下げ速報】🔥"
  price_up := fun diff percent => "値上げ: +" ++ commaNat diff ++ "円 (+" ++ fmt1 percent ++ "%)"
  price_down := fun diff percent =>
    "【値下げ】" ++ commaNat diff ++ "円引き (" ++ fmt1 percent ++ "%オフ)"
  availability_change := fun old new => "在庫状況変更: " ++ old ++ " → " ++ new
  current_price := fun price => "✅ 特価: " ++ commaInt price ++ "円"
  footer := "#お買い得 #タイムセール"

/-- A vacuous template standing for the `KeyError` Python would raise on a
store with no `"default"` key; theorems hypothesise that key's presence. -/
def emptyTemplate : PostTemplate where
  title := ""
  price_up := fun _ _ => ""
  price_down := fun _ _ => ""
  availability_change := fun _ _ => ""
  current_price := fun _ => ""
  footer := ""

/-- The template store as seeded by `load_templates` (source lines 85-106). -/
def builtinTemplates : List (String × PostTemplate) :=
  [("default", defaultTemplate), ("flash_sale", flashSaleTemplate)]

def lookupTemplate (store : List (String × PostTemplate)) (name : String) : Option PostTemplate :=
  (store.find? (fun kv => kv.1 == name)).map Prod.snd

/-- Source line 437: `self.templates.get(template_name, self.templates["default"])`. -/
def resolveTemplate (store : List (String × PostTemplate)) (name : String) : PostTemplate :=
  (lookupTemplate store name).getD ((lookupTemplate store "default").getD emptyTemplate)

/-! ## Template selector (source lines 425-437) -/

def priceMarker : List Char := "価格変動".data

def downMarker : List Char := "下落".data

def upMarker : List Char := "上昇".data

def availWord : List Char := "在庫状況".data

/-- One change entry triggers the flash-sale escalation (source lines
430-435): it mentions a price change and a drop, and its re-parsed percent
is at least 10. -/
def qualifiesFlash (change : String) : Bool :=
  pyContains change.data priceMarker && pyContains change.data downMarker &&
    (match searchPercent change.data with
     | some (ip, fp) => decide (10 ≤ parsePointQ ip fp)
     | none => false)

/-- Source lines 425-435.  The `for`/`break` loop sets `"flash_sale"` exactly
when some entry qualifies, so it is embedded as `List.any`. -/
def selectTemplateName (changes : List String) : String :=
  if changes.any (fun c => pyContains c.data priceMarker) then
    if changes.any qualifiesFlash then "flash_sale" else "default"
  else "default"

/-! ## Notification renderer (source lines 439-491) -/

/-- `int(m.group(1).replace(',', ''))` over the `円上昇` diff match. -/
def upDiffOf (s : List Char) : Option Nat :=
  (searchNum "円上昇".data s).map (fun g => parseDigits (g.filter (fun c => c ≠ ',')))

/-- `int(m.group(1).replace(',', ''))` over the `円下落` diff match. -/
def downDiffOf (s : List Char) : Option Nat :=
  (searchNum "円下落".data s).map (fun g => parseDigits (g.filter (fun c => c ≠ ',')))

/-- `float(m.group(1))` over the percent match. -/
def percentOf (s : List Char) : Option ℚ :=
  (searchPercent s).map (fun p => parsePointQ p.1 p.2)

/-- The loop body of source lines 442-471: what one `changes` entry appends
to the post (nothing, when a regex fails to match). -/
def renderChange (t : PostTemplate) (change : String) : String :=
  if pyContains change.data priceMarker then
    if pyContains change.data upMarker then
      match upDiffOf change.data, percentOf change.data with
      | some diff, some percent => "・" ++ t.price_up diff percent ++ "\n"
      | _, _ => ""
    else if pyContains change.data downMarker then
      match downDiffOf change.data, percentOf change.data with
      | some diff, some percent => "・" ++ t.price_down diff percent ++ "\n"
      | _, _ => ""
    else ""
  else if pyContains change.data availWord then
    match searchAvail change.data with
    | some (o, n) => "・" ++ t.availability_change (String.mk o) (String.mk n) ++ "\n"
    | none => ""
  else "・" ++ change ++ "\n"

/-- Python truthiness of the optional current price (source line 473): `0`
and `None` are both falsy. -/
def pyTruthyInt : Option Int → Bool
  | none => false
  | some n => decide (n ≠ 0)

/-- Source line 440: the title line, product name, and blank line. -/
def bodyInit (t : PostTemplate) (name : String) : String := t.title ++ "\n" ++ name ++ "\n\n"

/-- Source lines 440-471: header plus one rendered line per change entry. -/
def bodyChanges (t : PostTemplate) (name : String) (changes : List String) : String :=
  changes.foldl (fun post ch => post ++ renderChange t ch) (bodyInit t name)

/-- Source lines 473-474: the current-price line, under Python truthiness. -/
def currentPricePart (t : PostTemplate) (cur : Option Int) : String :=
  if pyTruthyInt cur then "\n" ++ t.current_price (cur.getD 0) ++ "\n" else ""

/-- Source lines 477-478: the footer block, if the footer is non-empty. -/
def footerPart (t : PostTemplate) : String :=
  if t.footer ≠ "" then "\n" ++ t.footer ++ "\n" else ""

/-- Source lines 440-480: the full post body before length adjustment. -/
def buildBody (t : PostTemplate) (name : String) (changes : List String) (cur : Option Int)
    (url : String) : String :=
  bodyChanges t name changes ++ currentPricePart t cur ++ footerPart t ++ "\n" ++ url

/-- Python `s[:n]` on code points. -/
def strTake (s : String) (n : Nat) : String := String.mk (s.data.take n)

/-- Source lines 483-487: if over 280 characters, shrink the product name and
re-substitute it. -/
def nameShrinkStep (name post : String) : String :=
  if 280 < post.length then
    pyReplaceStr post name (strTake name (max 10 (name.length - (post.length - 270))) ++ "...")
  else post

/-- Source lines 490-491: if still over 280 characters, hard-truncate. -/
def hardTruncStep (post : String) : String :=
  if 280 < post.length then strTake post 277 ++ "..." else post

/-- Source lines 482-491: the two-step length adjustment, in order. -/
def adjustLength (name post : String) : String := hardTruncStep (nameShrinkStep name post)

/-- Python truthiness of the optional partner tag. -/
def tagTruthy : Option String → Bool
  | none => false
  | some t => decide (t ≠ "")

/-- Source lines 297-299 and 419-421: append the affiliate tag if absent. -/
def applyTag (tag : Option String) (url : String) : String :=
  if !pyContains url.data "?tag=".data && !pyContains url.data "&tag=".data && tagTruthy tag then
    url ++ (if pyContains url.data "?".data then "&" else "?") ++ "tag=" ++ tag.getD ""
  else url

/-- The full text `post_to_twitter` builds and hands to the transport
(source lines 413-491). -/
def post_to_twitter_text (store : List (String × PostTemplate)) (tag : Option String)
    (p : TrackedProduct) (changes : List String) : String :=
  adjustLength p.name
    (buildBody (resolveTemplate store (selectTemplateName changes)) p.name changes p.last_price
      (applyTag tag p.url))

/-! ## Catalog response parser (embedding of `parse_pa_api_response`,
source lines 233-276)

The response document is embedded as a JSON value.  Key access on non-objects
and iteration over non-arrays — places where the Python would raise a
`TypeError` on documents of the wrong shape, which no claim exercises — are
modelled as absent keys / the empty batch. -/

inductive Json where
  | null
  | str (s : String)
  | num (q : ℚ)
  | bool (b : Bool)
  | arr (xs : List Json)
  | obj (fields : List (String × Json))

/-- Key lookup, as guarded by the source's `in` checks. -/
def Json.getKey : Json → String → Option Json
  | .obj fs, k => (fs.find? (fun kv => kv.1 == k)).map Prod.snd
  | _, _ => none

/-- Python truthiness of a JSON value (`if not response`). -/
def jsonTruthy : Json → Bool
  | .null => false
  | .bool b => b
  | .num q => decide (q ≠ 0)
  | .str s => decide (s ≠ "")
  | .arr xs => !xs.isEmpty
  | .obj fs => !fs.isEmpty

/-- `Rat.floor` agrees with `⌊⌋` (the former is kernel-reducible). -/
theorem ratFloor_eq (q : ℚ) : Rat.floor q = ⌊q⌋ := by
  rw [Rat.floor_def', Rat.floor_def]

/-- Python `int(float(q))`: truncation toward zero (`Rat.floor` keeps it
kernel-reducible; `pyTruncQ_eq` gives the `⌊⌋`/`⌈⌉` reading). -/
def pyTruncQ (q : ℚ) : Int := if 0 ≤ q then Rat.floor q else -(Rat.floor (-q))

theorem pyTruncQ_eq (q : ℚ) : pyTruncQ q = if 0 ≤ q then ⌊q⌋ else ⌈q⌉ := by
  unfold pyTruncQ
  by_cases h : 0 ≤ q
  · rw [if_pos h, if_pos h, ratFloor_eq]
  · rw [if_neg h, if_neg h, ratFloor_eq, Int.floor_neg, neg_neg]

/-- `PARTNER_TAG` interpolated into an f-string (`None` renders as "None"). -/
def tagStr : Option String → String
  | some t => t
  | none => "None"

/-- Source lines 246-248: the item title, defaulting to `"不明"`. -/
def titleOf (item : Json) : String :=
  match ((item.getKey "ItemInfo").bind (fun j => j.getKey "Title")).bind
      (fun j => j.getKey "DisplayValue") with
  | some (.str s) => s
  | _ => "不明"

/-- Source lines 252-253 and 259-260: `item["Offers"]["Listings"][0]` behind
the presence and length guards. -/
def firstListing (item : Json) : Option Json :=
  match (item.getKey "Offers").bind (fun j => j.getKey "Listings") with
  | some (.arr (l :: _)) => some l
  | _ => none

/-- Source lines 250-255: the price, truncated to an integer. -/
def priceOf (item : Json) : Option Int :=
  match ((firstListing item).bind (fun l => l.getKey "Price")).bind
      (fun p => p.getKey "Amount") with
  | some (.num q) => some (pyTruncQ q)
  | _ => none

/-- Source lines 257-262: the availability message, defaulting to `"不明"`. -/
def availabilityOf (item : Json) : String :=
  match ((firstListing item).bind (fun l => l.getKey "Availability")).bind
      (fun a => a.getKey "Message") with
  | some (.str s) => s
  | _ => "不明"

/-- Source lines 264-267: the detail URL, defaulting to the affiliate link. -/
def urlOf (tag : Option String) (asin : String) (item : Json) : String :=
  match item.getKey "DetailPageURL" with
  | some (.str u) => u
  | _ => "https://www.amazon.co.jp/dp/" ++ asin ++ "?tag=" ++ tagStr tag

/-- Source lines 241-274: one item's record, or `none` when the ASIN is
absent or falsy (`continue`). -/
def parseItem (tag : Option String) (item : Json) : Option (String × ItemRecord) :=
  match item.getKey "ASIN" with
  | some (.str a) =>
    if a = "" then none
    else
      some (a,
        { title := titleOf item, price := priceOf item,
          availability := availabilityOf item, detail_page_url := urlOf tag a item })
  | _ => none

/-- Python dict insertion: overwrite in place, else append. -/
def dictInsert (d : List (String × ItemRecord)) (k : String) (v : ItemRecord) :
    List (String × ItemRecord) :=
  if d.any (fun kv => kv.1 == k) then d.map (fun kv => if kv.1 == k then (k, v) else kv)
  else d ++ [(k, v)]

/-- Embedding of `parse_pa_api_response` (source lines 233-276): the mapping
from item id to record, in insertion order. -/
def parse_pa_api_response (tag : Option String) (response : Json) :
    List (String × ItemRecord) :=
  if !jsonTruthy response then []
  else
    match (response.getKey "ItemsResult").bind (fun j => j.getKey "Items") with
    | some (.arr items) =>
      items.foldl
        (fun acc item =>
          match parseItem tag item with
          | some (a, r) => dictInsert acc a r
          | none => acc)
        []
    | _ => []

/-! ## Adding a product (embedding of `add_product`, source lines 278-321,
after a successful lookup produced the parsed record `info`) -/

/-- Source lines 291-315: the new tracked-product record. -/
def add_product_record (tag : Option String) (now : String) (asin : String)
    (info : ItemRecord) : TrackedProduct :=
  { asin := asin, name := info.title, url := applyTag tag info.detail_page_url,
    last_price := info.price, last_availability := some info.availability,
    last_checked := now,
    price_history := [{ price := info.price, timestamp := now }] }

/-- Source line 318: `self.products.append(product)` — an unconditional
append, with no lookup for an existing entry with the same id. -/
def add_product (tag : Option String) (now : String) (products : List TrackedProduct)
    (asin : String) (info : ItemRecord) : List TrackedProduct :=
  products ++ [add_product_record tag now asin info]

/-! ## Digit and formatting lemmas -/

theorem digitChar_toNat {d : Nat} (h : d < 10) : (digitChar d).toNat = 48 + d := by
  have hv : Nat.isValidChar (48 + d) := by left; omega
  simp [digitChar, Char.ofNat, hv, Char.ofNatAux, Char.toNat, UInt32.toNat,
    BitVec.toNat_ofNatLt]

theorem isDig_digitChar {d : Nat} (h : d < 10) : isDig (digitChar d) = true := by
  simp [isDig, digitChar_toNat h]
  omega

theorem digitVal_digitChar {d : Nat} (h : d < 10) : digitVal (digitChar d) = d := by
  simp [digitVal, digitChar_toNat h]

theorem isDig_ne {c d : Char} (hc : isDig c = true) (hd : d.toNat < 48 ∨ 57 < d.toNat) :
    c ≠ d := by
  intro he
  subst he
  simp [isDig] at hc
  omega

theorem natDigitsCore_ne_nil (n : Nat) : natDigitsCore n ≠ [] := by
  rw [natDigitsCore_unfold]
  by_cases hlt : n < 10 <;> simp [hlt]

theorem mem_natDigitsCore_isDig {n : Nat} {c : Char} (h : c ∈ natDigitsCore n) :
    isDig c = true := by
  induction n using Nat.strong_induction_on with
  | _ n ih =>
    rw [natDigitsCore_unfold] at h
    by_cases hlt : n < 10
    · rw [if_pos hlt] at h
      simp at h
      subst h
      exact isDig_digitChar hlt
    · rw [if_neg hlt] at h
      simp at h
      rcases h with h | h
      · exact ih (n / 10) (Nat.div_lt_self (by omega) (by omega)) h
      · subst h
        exact isDig_digitChar (Nat.mod_lt _ (by omega))

theorem parseDigits_foldl (a : Nat) (l : List Char) :
    l.foldl (fun a c => 10 * a + digitVal c) a = a * 10 ^ l.length + parseDigits l := by
  induction l generalizing a with
  | nil => simp [parseDigits]
  | cons c t ih =>
    simp only [List.foldl_cons, parseDigits] at *
    rw [ih (10 * a + digitVal c), ih (10 * 0 + digitVal c)]
    simp [List.length_cons, pow_succ]
    ring

theorem parseDigits_append (a b : List Char) :
    parseDigits (a ++ b) = parseDigits a * 10 ^ b.length + parseDigits b := by
  simp only [parseDigits, List.foldl_append]
  exact parseDigits_foldl _ b

theorem parseDigits_natDigitsCore (n : Nat) : parseDigits (natDigitsCore n) = n := by
  induction n using Nat.strong_induction_on with
  | _ n ih =>
    rw [natDigitsCore_unfold]
    by_cases hlt : n < 10
    · simp [if_pos hlt, parseDigits, digitVal_digitChar hlt]
    · rw [if_neg hlt, parseDigits_append, ih (n / 10) (Nat.div_lt_self (by omega) (by omega))]
      have hm : n % 10 < 10 := Nat.mod_lt _ (by omega)
      simp [parseDigits, digitVal_digitChar hm]
      omega

theorem natDigitsCore_length_le {k n : Nat} (hk : 1 ≤ k) (h : n < 10 ^ k) :
    (natDigitsCore n).length ≤ k := by
  induction k generalizing n with
  | zero => omega
  | succ k ih =>
    rw [natDigitsCore_unfold]
    by_cases hlt : n < 10
    · rw [if_pos hlt]
      simp
    · rw [if_neg hlt]
      have hk1 : 1 ≤ k := by
        rcases Nat.eq_zero_or_pos k with hz | hp
        · subst hz
          simp at h
          omega
        · omega
      have hdiv : n / 10 < 10 ^ k := by
        rw [Nat.div_lt_iff_lt_mul (by omega)]
        calc n < 10 ^ (k + 1) := h
          _ = 10 ^ k * 10 := by ring
      have := ih hk1 hdiv
      simp [List.length_append]
      omega

theorem mem_pad3_isDig {n : Nat} {c : Char} (h : c ∈ pad3 n) : isDig c = true := by
  simp only [pad3, List.mem_append, List.mem_replicate] at h
  rcases h with ⟨-, h⟩ | h
  · subst h
    decide
  · exact mem_natDigitsCore_isDig h

theorem pad3_length {n : Nat} (h : n < 1000) : (pad3 n).length = 3 := by
  have h3 : n < 10 ^ 3 := by norm_num; omega
  have := natDigitsCore_length_le (by omega) h3
  simp [pad3, List.length_append, List.length_replicate]
  omega

theorem parseDigits_cons_zero (l : List Char) : parseDigits ('0' :: l) = parseDigits l := by
  have h : digitVal '0' = 0 := by decide
  simp [parseDigits, List.foldl_cons, h]

theorem parseDigits_replicate_zero (k : Nat) (l : List Char) :
    parseDigits (List.replicate k '0' ++ l) = parseDigits l := by
  induction k with
  | zero => simp
  | succ k ih => simpa [List.replicate_succ, parseDigits_cons_zero] using ih

theorem parseDigits_pad3 (n : Nat) : parseDigits (pad3 n) = n := by
  rw [pad3, parseDigits_replicate_zero, parseDigits_natDigitsCore]

theorem commaGroupCore_lt {n : Nat} (h : n < 1000) : commaGroupCore n = natDigitsCore n := by
  rw [commaGroupCore_unfold, if_pos h]

theorem commaGroupCore_mid {n : Nat} (h1 : 1000 ≤ n) (h2 : n ≤ 999999) :
    commaGroupCore n = natDigitsCore (n / 1000) ++ ',' :: pad3 (n % 1000) := by
  rw [commaGroupCore_unfold, if_neg (by omega)]
  congr 1
  exact commaGroupCore_lt (by omega)

theorem mem_commaGroupCore {n : Nat} {c : Char} (h : c ∈ commaGroupCore n) :
    isDig c = true ∨ c = ',' := by
  induction n using Nat.strong_induction_on with
  | _ n ih =>
    rw [commaGroupCore_unfold] at h
    by_cases hlt : n < 1000
    · rw [if_pos hlt] at h
      exact Or.inl (mem_natDigitsCore_isDig h)
    · rw [if_neg hlt] at h
      simp at h
      rcases h with h | h | h
      · exact ih (n / 1000) (Nat.div_lt_self (by omega) (by omega)) h
      · exact Or.inr h
      · exact Or.inl (mem_pad3_isDig h)

theorem filter_ne_comma_of_isDig {l : List Char} (h : ∀ c ∈ l, isDig c = true) :
    l.filter (fun c => c ≠ ',') = l := by
  rw [List.filter_eq_self]
  intro c hc
  simpa using isDig_ne (h c hc) (Or.inl (by decide))

theorem parseDigits_commaGroup {n : Nat} (h : n ≤ 999999) :
    parseDigits ((commaGroupCore n).filter (fun c => c ≠ ',')) = n := by
  by_cases h3 : n < 1000
  · rw [commaGroupCore_lt h3,
      filter_ne_comma_of_isDig (fun c hc => mem_natDigitsCore_isDig hc),
      parseDigits_natDigitsCore]
  · have hcons : ∀ l : List Char,
        (',' :: l).filter (fun c => c ≠ ',') = l.filter (fun c => c ≠ ',') := by
      intro l
      simp
    rw [commaGroupCore_mid (by omega) h, List.filter_append, hcons]
    rw [filter_ne_comma_of_isDig (fun c hc => mem_natDigitsCore_isDig hc),
      filter_ne_comma_of_isDig (fun c hc => mem_pad3_isDig hc),
      parseDigits_append, parseDigits_pad3, parseDigits_natDigitsCore,
      pad3_length (Nat.mod_lt _ (by omega))]
    have := Nat.div_add_mod n 1000
    norm_num
    omega

/-! ## Scanning helpers -/

theorem takeWhile_append_cons {p : Char → Bool} {A : List Char} {c : Char} (t : List Char)
    (hA : ∀ x ∈ A, p x = true) (hc : p c = false) : (A ++ c :: t).takeWhile p = A := by
  induction A with
  | nil => simp [List.takeWhile_cons, hc]
  | cons a as ih =>
    have ha : p a = true := hA a (by simp)
    simp only [List.cons_append, List.takeWhile_cons, ha, if_true]
    rw [ih (fun x hx => hA x (by simp [hx]))]

theorem takeWhile_eq_self_of_all {p : Char → Bool} {l : List Char}
    (h : ∀ x ∈ l, p x = true) : l.takeWhile p = l := by
  induction l with
  | nil => rfl
  | cons a as ih =>
    have ha : p a = true := h a (by simp)
    simp only [List.takeWhile_cons, ha, if_true]
    rw [ih (fun x hx => h x (by simp [hx]))]

theorem isPrefixOf_append_self (l t : List Char) : l.isPrefixOf (l ++ t) = true := by
  induction l with
  | nil => simp [List.isPrefixOf]
  | cons c cs ih => simpa [List.isPrefixOf] using ih

theorem findSome?_dstarKs {α : Type} (f : Nat → Option α) (m : Nat) {x : α}
    (h : f m = some x) : (dstarKs m).findSome? f = some x := by
  cases m with
  | zero => simp [dstarKs, List.findSome?_cons, h]
  | succ k => simp [dstarKs, List.findSome?_cons, h]

theorem findSome?_dplusKs {α : Type} (f : Nat → Option α) (k : Nat) {x : α}
    (h : f (k + 1) = some x) : (dplusKs (k + 1)).findSome? f = some x := by
  simp [dplusKs, List.findSome?_cons, h]

/-! ## Matcher lemmas: success and skip -/

theorem matchNumTail_exact (lit pre B : List Char) (c : Char) (t : List Char)
    (hB : ∀ x ∈ B, isDig x = true) (hc : isDig c = false)
    (hlit : lit.isPrefixOf (c :: t) = true) :
    matchNumTail lit pre (B ++ c :: t) = some (pre ++ B) := by
  unfold matchNumTail
  rw [takeWhile_append_cons t hB hc]
  apply findSome?_dstarKs
  rw [List.drop_left, List.take_left, if_pos hlit]

theorem matchNumAt_run_nocomma (lit D : List Char) (c : Char) (t : List Char) (hD : D ≠ [])
    (hdig : ∀ x ∈ D, isDig x = true) (hc : isDig c = false) (hcomma : c ≠ ',')
    (hlit : lit.isPrefixOf (c :: t) = true) :
    matchNumAt lit (D ++ c :: t) = some D := by
  obtain ⟨d, D', rfl⟩ := List.exists_cons_of_ne_nil hD
  unfold matchNumAt
  rw [takeWhile_append_cons t hdig hc]
  apply findSome?_dplusKs (k := D'.length)
  rw [show D'.length + 1 = (d :: D').length from rfl, List.take_left, List.drop_left]
  unfold matchNumComma
  have hic : headIsComma (c :: t) = false := by simp [headIsComma, hcomma]
  rw [hic, if_neg (by simp)]
  have := matchNumTail_exact lit (d :: D') [] c t (by simp) hc hlit
  simpa using this

theorem matchNumAt_run_comma (lit A B : List Char) (c : Char) (t : List Char) (hA : A ≠ [])
    (hdigA : ∀ x ∈ A, isDig x = true) (hdigB : ∀ x ∈ B, isDig x = true)
    (hc : isDig c = false) (hlit : lit.isPrefixOf (c :: t) = true) :
    matchNumAt lit (A ++ ',' :: (B ++ c :: t)) = some (A ++ ',' :: B) := by
  obtain ⟨a, A', rfl⟩ := List.exists_cons_of_ne_nil hA
  unfold matchNumAt
  rw [takeWhile_append_cons (B ++ c :: t) hdigA (by decide)]
  apply findSome?_dplusKs (k := A'.length)
  rw [show A'.length + 1 = (a :: A').length from rfl, List.take_left, List.drop_left]
  unfold matchNumComma
  have hic : headIsComma (',' :: (B ++ c :: t)) = true := by simp [headIsComma]
  rw [hic, if_pos rfl]
  simp only [List.tail_cons]
  rw [matchNumTail_exact lit ((a :: A') ++ [',']) B c t hdigB hc hlit]
  simp

theorem matchNumAt_nodigit (lit : List Char) (c : Char) (t : List Char)
    (hc : isDig c = false) : matchNumAt lit (c :: t) = none := by
  unfold matchNumAt
  simp [List.takeWhile_cons, hc, dplusKs]

theorem searchNum_append_nodigit (lit P s : List Char) (hP : ∀ c ∈ P, isDig c = false) :
    searchNum lit (P ++ s) = searchNum lit s := by
  induction P with
  | nil => rfl
  | cons c P' ih =>
    have hc : isDig c = false := hP c (by simp)
    simp only [List.cons_append, searchNum, matchNumAt_nodigit lit _ _ hc]
    exact ih (fun x hx => hP x (by simp [hx]))

theorem searchNum_of_match {lit s : List Char} {r : List Char} (hs : s ≠ [])
    (h : matchNumAt lit s = some r) : searchNum lit s = some r := by
  obtain ⟨c, t, rfl⟩ := List.exists_cons_of_ne_nil hs
  simp [searchNum, h]

theorem matchPercentAt_exact (ip fp t : List Char) (hip : ip ≠ []) (hfp : fp ≠ [])
    (hdip : ∀ x ∈ ip, isDig x = true) (hdfp : ∀ x ∈ fp, isDig x = true) :
    matchPercentAt ('(' :: (ip ++ '.' :: (fp ++ '%' :: ')' :: t))) = some (ip, fp) := by
  obtain ⟨i, ip', rfl⟩ := List.exists_cons_of_ne_nil hip
  obtain ⟨f, fp', rfl⟩ := List.exists_cons_of_ne_nil hfp
  simp only [matchPercentAt, if_pos rfl]
  rw [takeWhile_append_cons _ hdip (by decide)]
  apply findSome?_dplusKs (k := ip'.length)
  unfold matchPercentTail
  rw [show ip'.length + 1 = (i :: ip').length from rfl, List.drop_left]
  simp only
  rw [takeWhile_append_cons _ hdfp (by decide)]
  apply findSome?_dplusKs (k := fp'.length)
  rw [show fp'.length + 1 = (f :: fp').length from rfl, List.drop_left, List.take_left,
    List.take_left]
  rfl

theorem matchPercentAt_noparen (c : Char) (t : List Char) (hc : c ≠ '(') :
    matchPercentAt (c :: t) = none := by
  simp [matchPercentAt, hc]

theorem searchPercent_append_noparen (P s : List Char) (hP : ∀ c ∈ P, c ≠ '(') :
    searchPercent (P ++ s) = searchPercent s := by
  induction P with
  | nil => rfl
  | cons c P' ih =>
    have hc : c ≠ '(' := hP c (by simp)
    simp only [List.cons_append, searchPercent, matchPercentAt_noparen c _ hc]
    exact ih (fun x hx => hP x (by simp [hx]))

theorem searchPercent_of_match {s : List Char} {r : List Char × List Char} (hs : s ≠ [])
    (h : matchPercentAt s = some r) : searchPercent s = some r := by
  obtain ⟨c, t, rfl⟩ := List.exists_cons_of_ne_nil hs
  simp [searchPercent, h]

theorem splitLastArrow_cons (c : Char) (rest : List Char) :
    splitLastArrow (c :: rest) =
      match splitLastArrow rest with
      | some (a, b) => some (c :: a, b)
      | none =>
        if arrowSep.isPrefixOf (c :: rest) then some ([], (c :: rest).drop 3) else none := rfl

theorem splitLastArrow_boundary (O N : List Char) (hN1 : splitLastArrow N = none)
    (hN2 : (['→', ' '].isPrefixOf N) = false) :
    splitLastArrow (O ++ arrowSep ++ N) = some (O, N) := by
  induction O with
  | nil =>
    have hA : splitLastArrow (' ' :: N) = none := by
      rw [splitLastArrow_cons, hN1]
      have hpre : arrowSep.isPrefixOf (' ' :: N) = false := by
        simpa [arrowSep, List.isPrefixOf] using hN2
      simp [hpre]
    have hB : splitLastArrow ('→' :: ' ' :: N) = none := by
      rw [splitLastArrow_cons, hA]
      have hpre : arrowSep.isPrefixOf ('→' :: ' ' :: N) = false := by
        simp [arrowSep, List.isPrefixOf]
      simp [hpre]
    show splitLastArrow (' ' :: '→' :: ' ' :: N) = some ([], N)
    rw [splitLastArrow_cons, hB]
    have hpre : arrowSep.isPrefixOf (' ' :: '→' :: ' ' :: N) = true := by
      simpa [arrowSep] using isPrefixOf_append_self arrowSep N
    simp [hpre]
  | cons o O' ih =>
    simp only [List.cons_append]
    rw [splitLastArrow_cons, ih]

theorem matchAvailAt_exact (O N : List Char)
    (hall : ∀ c ∈ O ++ arrowSep ++ N, (c ≠ '\n' : Bool) = true)
    (hN1 : splitLastArrow N = none) (hN2 : (['→', ' '].isPrefixOf N) = false) :
    matchAvailAt (availPat ++ (O ++ arrowSep ++ N)) = some (O, N) := by
  unfold matchAvailAt
  rw [if_pos (by simpa using isPrefixOf_append_self availPat (O ++ arrowSep ++ N)),
    List.drop_left, takeWhile_eq_self_of_all hall]
  exact splitLastArrow_boundary O N hN1 hN2

theorem searchAvail_of_match {s : List Char} {r : List Char × List Char} (hs : s ≠ [])
    (h : matchAvailAt s = some r) : searchAvail s = some r := by
  obtain ⟨c, t, rfl⟩ := List.exists_cons_of_ne_nil hs
  simp [searchAvail, h]

/-! ## Containment lemmas -/

theorem pyContains_of_append (A pat B : List Char) (hp : pat ≠ []) :
    pyContains (A ++ (pat ++ B)) pat = true := by
  induction A with
  | nil =>
    obtain ⟨p, p', rfl⟩ := List.exists_cons_of_ne_nil hp
    simp only [List.nil_append, List.cons_append, pyContains]
    rw [show p :: (p' ++ B) = (p :: p') ++ B from rfl, isPrefixOf_append_self]
    simp
  | cons a A' ih =>
    simp only [List.cons_append, pyContains, ih]
    simp [ih]

theorem pyContains_false_of_notMem {s : List Char} {d : Char} (p' : List Char)
    (hd : d ∉ s) : pyContains s (d :: p') = false := by
  induction s with
  | nil => rfl
  | cons c rest ih =>
    have hdc : (d == c) = false := by
      simp only [beq_eq_false_iff_ne, ne_eq]
      intro he
      exact hd (by simp [he])
    simp only [pyContains, List.isPrefixOf, hdc, Bool.false_and, Bool.false_or]
    exact ih (fun hm => hd (by simp [hm]))

theorem mem_fmt1_data {q : ℚ} {c : Char} (h : c ∈ (fmt1 q).data) :
    isDig c = true ∨ c = '.' := by
  have : (fmt1 q).data =
      natDigitsCore (round1num q / 10) ++ '.' :: [digitChar (round1num q % 10)] := rfl
  rw [this] at h
  simp at h
  rcases h with h | h | h
  · exact Or.inl (mem_natDigitsCore_isDig h)
  · exact Or.inr h
  · subst h
    exact Or.inl (isDig_digitChar (Nat.mod_lt _ (by omega)))

/-! ## Parsing the detector's formatted price text back out -/

theorem parseDigits_singleton (c : Char) : parseDigits [c] = digitVal c := by
  simp [parseDigits]

theorem parsePointQ_fmt1 (q : ℚ) :
    parsePointQ (natDigitsCore (round1num q / 10)) [digitChar (round1num q % 10)] =
      (round1num q : ℚ) / 10 := by
  unfold parsePointQ
  rw [parseDigits_natDigitsCore, parseDigits_singleton,
    digitVal_digitChar (Nat.mod_lt _ (by omega))]
  simp only [List.length_singleton, pow_one]
  field_simp
  norm_cast
  omega

theorem priceChangeText_down_data {cp lp : Int} (hdir : ¬ 0 < cp - lp) :
    (priceChangeText cp lp).data =
      "価格変動: ⬇️ ".data ++
        (commaGroupCore (cp - lp).natAbs ++ '円' :: '下' :: '落' :: ' ' :: '(' ::
          ((fmt1 |priceChangePercent cp lp|).data ++ ['%', ')'])) := by
  have hdir2 : ¬ lp < cp := by omega
  have e7 : ("価格変動: ⬇️ " : String).data =
      '価' :: '格' :: '変' :: '動' :: ':' :: ' ' :: '⬇' :: Char.ofNat 65039 :: ' ' :: [] := by
    decide
  simp [priceChangeText, priceChangeBody, percentTextOf, commaNat,
    String.data_append, e7, hdir2, List.append_assoc]

theorem priceChangeText_up_data {cp lp : Int} (hdir : 0 < cp - lp) :
    (priceChangeText cp lp).data =
      "価格変動: ⬆️ ".data ++
        (commaGroupCore (cp - lp).natAbs ++ '円' :: '上' :: '昇' :: ' ' :: '(' ::
          ((fmt1 |priceChangePercent cp lp|).data ++ ['%', ')'])) := by
  have hdir2 : lp < cp := by omega
  have e7 : ("価格変動: ⬆️ " : String).data =
      '価' :: '格' :: '変' :: '動' :: ':' :: ' ' :: '⬆' :: Char.ofNat 65039 :: ' ' :: [] := by
    decide
  simp [priceChangeText, priceChangeBody, percentTextOf, commaNat,
    String.data_append, e7, hdir2, List.append_assoc]

theorem searchNum_commaGroup (lit : List Char) (n : Nat) (c : Char) (t : List Char)
    (hn : n ≤ 999999) (hc : isDig c = false) (hcm : c ≠ ',')
    (hlit : lit.isPrefixOf (c :: t) = true) :
    searchNum lit (commaGroupCore n ++ c :: t) = some (commaGroupCore n) := by
  apply searchNum_of_match (by simp)
  by_cases h3 : n < 1000
  · rw [commaGroupCore_lt h3]
    exact matchNumAt_run_nocomma lit _ c t (natDigitsCore_ne_nil n)
      (fun x hx => mem_natDigitsCore_isDig hx) hc hcm hlit
  · rw [commaGroupCore_mid (by omega) hn]
    have h := matchNumAt_run_comma lit (natDigitsCore (n / 1000)) (pad3 (n % 1000)) c t
      (natDigitsCore_ne_nil _) (fun x hx => mem_natDigitsCore_isDig hx)
      (fun x hx => mem_pad3_isDig hx) hc hlit
    simpa [List.append_assoc] using h

theorem downDiffOf_priceChangeText {cp lp : Int} (hdir : ¬ 0 < cp - lp)
    (hd : (cp - lp).natAbs ≤ 999999) :
    downDiffOf (priceChangeText cp lp).data = some ((cp - lp).natAbs) := by
  unfold downDiffOf
  have e3 : ("円下落" : String).data = ['円', '下', '落'] := by decide
  have hlit : (['円', '下', '落'] : List Char).isPrefixOf
      ('円' :: '下' :: '落' :: ' ' :: '(' ::
        ((fmt1 |priceChangePercent cp lp|).data ++ ['%', ')'])) = true := by
    simpa using isPrefixOf_append_self ['円', '下', '落']
      (' ' :: '(' :: ((fmt1 |priceChangePercent cp lp|).data ++ ['%', ')']))
  rw [priceChangeText_down_data hdir, e3,
    searchNum_append_nodigit _ _ _ (by decide),
    searchNum_commaGroup _ _ _ _ hd (by decide) (by decide) hlit]
  simpa using parseDigits_commaGroup hd

theorem upDiffOf_priceChangeText {cp lp : Int} (hdir : 0 < cp - lp)
    (hd : (cp - lp).natAbs ≤ 999999) :
    upDiffOf (priceChangeText cp lp).data = some ((cp - lp).natAbs) := by
  unfold upDiffOf
  have e3 : ("円上昇" : String).data = ['円', '上', '昇'] := by decide
  have hlit : (['円', '上', '昇'] : List Char).isPrefixOf
      ('円' :: '上' :: '昇' :: ' ' :: '(' ::
        ((fmt1 |priceChangePercent cp lp|).data ++ ['%', ')'])) = true := by
    simpa using isPrefixOf_append_self ['円', '上', '昇']
      (' ' :: '(' :: ((fmt1 |priceChangePercent cp lp|).data ++ ['%', ')']))
  rw [priceChangeText_up_data hdir, e3,
    searchNum_append_nodigit _ _ _ (by decide),
    searchNum_commaGroup _ _ _ _ hd (by decide) (by decide) hlit]
  simpa using parseDigits_commaGroup hd

theorem searchPercent_paren (P : List Char) (q : ℚ) (hP : ∀ c ∈ P, c ≠ '(') :
    searchPercent (P ++ '(' :: ((fmt1 q).data ++ ['%', ')'])) =
      some (natDigitsCore (round1num q / 10), [digitChar (round1num q % 10)]) := by
  rw [searchPercent_append_noparen P _ hP]
  have hshape : (fmt1 q).data ++ ['%', ')'] =
      natDigitsCore (round1num q / 10) ++ '.' ::
        ([digitChar (round1num q % 10)] ++ '%' :: ')' :: []) := by
    show (natDigitsCore (round1num q / 10) ++ '.' :: [digitChar (round1num q % 10)]) ++
        ['%', ')'] = _
    simp [List.append_assoc]
  have hm : matchPercentAt ('(' :: ((fmt1 q).data ++ ['%', ')'])) =
      some (natDigitsCore (round1num q / 10), [digitChar (round1num q % 10)]) := by
    rw [hshape]
    exact matchPercentAt_exact _ _ [] (natDigitsCore_ne_nil _) (by simp)
      (fun x hx => mem_natDigitsCore_isDig hx)
      (by
        intro x hx
        simp at hx
        subst hx
        exact isDig_digitChar (Nat.mod_lt _ (by omega)))
  rw [searchPercent_of_match (by simp) hm]

theorem searchPercent_priceChangeText (cp lp : Int) :
    searchPercent (priceChangeText cp lp).data =
      some (natDigitsCore (round1num |priceChangePercent cp lp| / 10),
        [digitChar (round1num |priceChangePercent cp lp| % 10)]) := by
  by_cases hdir : 0 < cp - lp
  · rw [priceChangeText_up_data hdir]
    have hre : "価格変動: ⬆️ ".data ++
        (commaGroupCore (cp - lp).natAbs ++ '円' :: '上' :: '昇' :: ' ' :: '(' ::
          ((fmt1 |priceChangePercent cp lp|).data ++ ['%', ')'])) =
        ("価格変動: ⬆️ ".data ++ (commaGroupCore (cp - lp).natAbs ++ ['円', '上', '昇', ' '])) ++
          '(' :: ((fmt1 |priceChangePercent cp lp|).data ++ ['%', ')']) := by
      simp [List.append_assoc]
    rw [hre]
    apply searchPercent_paren
    intro c hc
    rw [List.mem_append, List.mem_append] at hc
    rcases hc with hc | hc | hc
    · exact (by decide : ∀ x ∈ ("価格変動: ⬆️ " : String).data, x ≠ '(') c hc
    · rcases mem_commaGroupCore hc with hd | hd
      · exact isDig_ne hd (Or.inl (by decide))
      · subst hd
        decide
    · exact (by decide : ∀ x ∈ (['円', '上', '昇', ' '] : List Char), x ≠ '(') c hc
  · rw [priceChangeText_down_data hdir]
    have hre : "価格変動: ⬇️ ".data ++
        (commaGroupCore (cp - lp).natAbs ++ '円' :: '下' :: '落' :: ' ' :: '(' ::
          ((fmt1 |priceChangePercent cp lp|).data ++ ['%', ')'])) =
        ("価格変動: ⬇️ ".data ++ (commaGroupCore (cp - lp).natAbs ++ ['円', '下', '落', ' '])) ++
          '(' :: ((fmt1 |priceChangePercent cp lp|).data ++ ['%', ')']) := by
      simp [List.append_assoc]
    rw [hre]
    apply searchPercent_paren
    intro c hc
    rw [List.mem_append, List.mem_append] at hc
    rcases hc with hc | hc | hc
    · exact (by decide : ∀ x ∈ ("価格変動: ⬇️ " : String).data, x ≠ '(') c hc
    · rcases mem_commaGroupCore hc with hd | hd
      · exact isDig_ne hd (Or.inl (by decide))
      · subst hd
        decide
    · exact (by decide : ∀ x ∈ (['円', '下', '落', ' '] : List Char), x ≠ '(') c hc

theorem percentOf_priceChangeText (cp lp : Int) :
    percentOf (priceChangeText cp lp).data =
      some ((round1num |priceChangePercent cp lp| : ℚ) / 10) := by
  unfold percentOf
  rw [searchPercent_priceChangeText]
  simp [parsePointQ_fmt1]

/-! ## Marker containment in the detector's texts -/

theorem priceText_contains_marker (cp lp : Int) :
    pyContains (priceChangeText cp lp).data priceMarker = true := by
  by_cases hdir : 0 < cp - lp
  · rw [priceChangeText_up_data hdir]
    have hsplit : ("価格変動: ⬆️ " : String).data =
        priceMarker ++ [':', ' ', '⬆', Char.ofNat 65039, ' '] := by decide
    rw [hsplit]
    simpa [List.append_assoc] using
      pyContains_of_append [] priceMarker
        ([':', ' ', '⬆', Char.ofNat 65039, ' '] ++
          (commaGroupCore (cp - lp).natAbs ++ '円' :: '上' :: '昇' :: ' ' :: '(' ::
            ((fmt1 |priceChangePercent cp lp|).data ++ ['%', ')']))) (by decide)
  · rw [priceChangeText_down_data hdir]
    have hsplit : ("価格変動: ⬇️ " : String).data =
        priceMarker ++ [':', ' ', '⬇', Char.ofNat 65039, ' '] := by decide
    rw [hsplit]
    simpa [List.append_assoc] using
      pyContains_of_append [] priceMarker
        ([':', ' ', '⬇', Char.ofNat 65039, ' '] ++
          (commaGroupCore (cp - lp).natAbs ++ '円' :: '下' :: '落' :: ' ' :: '(' ::
            ((fmt1 |priceChangePercent cp lp|).data ++ ['%', ')']))) (by decide)

theorem priceText_up_contains_up {cp lp : Int} (hdir : 0 < cp - lp) :
    pyContains (priceChangeText cp lp).data upMarker = true := by
  rw [priceChangeText_up_data hdir]
  have e : upMarker = ['上', '昇'] := by decide
  rw [e]
  simpa [List.append_assoc] using
    pyContains_of_append
      ("価格変動: ⬆️ ".data ++ (commaGroupCore (cp - lp).natAbs ++ ['円'])) ['上', '昇']
      (' ' :: '(' :: ((fmt1 |priceChangePercent cp lp|).data ++ ['%', ')'])) (by decide)

theorem priceText_down_contains_down {cp lp : Int} (hdir : ¬ 0 < cp - lp) :
    pyContains (priceChangeText cp lp).data downMarker = true := by
  rw [priceChangeText_down_data hdir]
  have e : downMarker = ['下', '落'] := by decide
  rw [e]
  simpa [List.append_assoc] using
    pyContains_of_append
      ("価格変動: ⬇️ ".data ++ (commaGroupCore (cp - lp).natAbs ++ ['円'])) ['下', '落']
      (' ' :: '(' :: ((fmt1 |priceChangePercent cp lp|).data ++ ['%', ')'])) (by decide)

theorem char_notMem_price_shape {d : Char} {atom : List Char} {n : Nat} {q : ℚ}
    {c1 c2 c3 : Char} (h0 : d ∉ atom) (h1 : isDig d = false) (h2 : d ≠ ',') (h3 : d ≠ c1)
    (h4 : d ≠ c2) (h5 : d ≠ c3) (h6 : d ≠ ' ') (h7 : d ≠ '(') (h8 : d ≠ '.') (h9 : d ≠ '%')
    (h10 : d ≠ ')') :
    d ∉ atom ++ (commaGroupCore n ++ c1 :: c2 :: c3 :: ' ' :: '(' ::
      ((fmt1 q).data ++ ['%', ')'])) := by
  intro hmem
  rcases List.mem_append.mp hmem with hm | hm
  · exact h0 hm
  rcases List.mem_append.mp hm with hm | hm
  · rcases mem_commaGroupCore hm with hg | hg
    · rw [hg] at h1
      exact absurd h1 (by simp)
    · exact h2 hg
  simp only [List.mem_cons] at hm
  rcases hm with h | h | h | h | h | hm
  · exact h3 h
  · exact h4 h
  · exact h5 h
  · exact h6 h
  · exact h7 h
  rcases List.mem_append.mp hm with hf | hl
  · rcases mem_fmt1_data hf with hg | hg
    · rw [hg] at h1
      exact absurd h1 (by simp)
    · exact h8 hg
  · simp only [List.mem_cons, List.not_mem_nil, or_false] at hl
    rcases hl with h | h
    · exact h9 h
    · exact h10 h

theorem priceText_up_not_down {cp lp : Int} (hdir : 0 < cp - lp) :
    pyContains (priceChangeText cp lp).data downMarker = false := by
  have e : downMarker = '下' :: ['落'] := by decide
  rw [e, priceChangeText_up_data hdir]
  exact pyContains_false_of_notMem _
    (char_notMem_price_shape (by decide) (by decide) (by decide) (by decide) (by decide)
      (by decide) (by decide) (by decide) (by decide) (by decide) (by decide))

theorem priceText_down_not_up {cp lp : Int} (hdir : ¬ 0 < cp - lp) :
    pyContains (priceChangeText cp lp).data upMarker = false := by
  have e : upMarker = '上' :: ['昇'] := by decide
  rw [e, priceChangeText_down_data hdir]
  exact pyContains_false_of_notMem _
    (char_notMem_price_shape (by decide) (by decide) (by decide) (by decide) (by decide)
      (by decide) (by decide) (by decide) (by decide) (by decide) (by decide))

/-! ## The availability text -/

theorem availChangeText_data (la ca : String) :
    (availChangeText la ca).data = availPat ++ (la.data ++ arrowSep ++ ca.data) := by
  have e : (" → " : String).data = arrowSep := by decide
  simp [availChangeText, String.data_append, e, availPat, arrowSep, List.append_assoc]

theorem searchAvail_availText (la ca : String)
    (hla : ∀ c ∈ la.data, c ≠ '\n') (hca : ∀ c ∈ ca.data, c ≠ '\n')
    (hN1 : splitLastArrow ca.data = none) (hN2 : (['→', ' '].isPrefixOf ca.data) = false) :
    searchAvail (availChangeText la ca).data = some (la.data, ca.data) := by
  rw [availChangeText_data]
  have hne : availPat ++ (la.data ++ arrowSep ++ ca.data) ≠ [] := by
    intro h
    rw [List.append_eq_nil] at h
    exact absurd h.1 (by decide)
  apply searchAvail_of_match hne
  apply matchAvailAt_exact
  · intro c hc
    rcases List.mem_append.mp hc with hm | hm
    · rcases List.mem_append.mp hm with hm2 | hm2
      · simp [hla c hm2]
      · have hc3 : c = ' ' ∨ c = '→' ∨ c = ' ' := by simpa [arrowSep] using hm2
        rcases hc3 with rfl | rfl | rfl <;> decide
    · simp [hca c hm]
  · exact hN1
  · exact hN2

theorem availText_contains_availWord (la ca : String) :
    pyContains (availChangeText la ca).data availWord = true := by
  rw [availChangeText_data]
  have e : availPat = availWord ++ [':', ' '] := by decide
  rw [e]
  simpa [List.append_assoc] using
    pyContains_of_append [] availWord ([':', ' '] ++ (la.data ++ arrowSep ++ ca.data))
      (by decide)

/-! ## One rendered line per change entry -/

theorem strMk_data (s : String) : String.mk s.data = s := rfl

theorem renderChange_priceText (t : PostTemplate) (cp lp : Int)
    (hd : (cp - lp).natAbs ≤ 999999) :
    renderChange t (priceChangeText cp lp) =
      "・" ++ (if 0 < cp - lp then
          t.price_up (cp - lp).natAbs ((round1num |priceChangePercent cp lp| : ℚ) / 10)
        else
          t.price_down (cp - lp).natAbs ((round1num |priceChangePercent cp lp| : ℚ) / 10)) ++
        "\n" := by
  unfold renderChange
  by_cases hdir : 0 < cp - lp
  · rw [if_pos (priceText_contains_marker cp lp),
      if_pos (priceText_up_contains_up hdir),
      upDiffOf_priceChangeText hdir hd, percentOf_priceChangeText, if_pos hdir]
  · rw [if_pos (priceText_contains_marker cp lp),
      if_neg (by simp [priceText_down_not_up hdir]),
      if_pos (priceText_down_contains_down hdir),
      downDiffOf_priceChangeText hdir hd, percentOf_priceChangeText, if_neg hdir]

theorem renderChange_availText (t : PostTemplate) (la ca : String)
    (hmarker : pyContains (availChangeText la ca).data priceMarker = false)
    (hla : ∀ c ∈ la.data, c ≠ '\n') (hca : ∀ c ∈ ca.data, c ≠ '\n')
    (hN1 : splitLastArrow ca.data = none) (hN2 : (['→', ' '].isPrefixOf ca.data) = false) :
    renderChange t (availChangeText la ca) = "・" ++ t.availability_change la ca ++ "\n" := by
  unfold renderChange
  rw [if_neg (by simp [hmarker]), if_pos (availText_contains_availWord la ca),
    searchAvail_availText la ca hla hca hN1 hN2]

/-! ## C4/C5: the change detector -/

inductive Direction where
  | up
  | down
deriving DecidableEq

/-- Spec-side `PriceChanged` event (spec §3, §4.3). -/
structure PriceChanged where
  old : Int
  new : Int
  deltaAbs : Int
  deltaPercent : ℚ
  direction : Direction
deriving DecidableEq

/-- The event spec §4.3 prescribes for a price change from `old` to `new`:
`deltaAbs = new - old`, `deltaPercent = (deltaAbs / old) * 100` if `old > 0`
else `0`, direction `up` iff the delta is positive. -/
def specPriceEvent (old new : Int) : PriceChanged where
  old := old
  new := new
  deltaAbs := new - old
  deltaPercent := if 0 < old then ((new - old : Int) : ℚ) / (old : ℚ) * 100 else 0
  direction := if 0 < new - old then Direction.up else Direction.down

/-- Rendering a `PriceChanged` event as the detector's change entry. -/
def eventText (e : PriceChanged) : String :=
  "価格変動: " ++
    (match e.direction with
     | Direction.up => "⬆️ " ++ commaNat e.deltaAbs.natAbs ++ "円上昇"
     | Direction.down => "⬇️ " ++ commaNat e.deltaAbs.natAbs ++ "円下落") ++
    " " ++ "(" ++ fmt1 |e.deltaPercent| ++ "%)"

theorem eventText_specPriceEvent (lp cp : Int) :
    eventText (specPriceEvent lp cp) = priceChangeText cp lp := by
  unfold eventText specPriceEvent priceChangeText priceChangeBody percentTextOf
    priceChangePercent
  by_cases hdir : 0 < cp - lp
  · simp only [if_pos hdir]
    apply String.ext
    simp [String.data_append, List.append_assoc]
  · simp only [if_neg hdir]
    apply String.ext
    simp [String.data_append, List.append_assoc]

/-- C4: when both the old and the fresh price are present and unequal, the
detector produces exactly one price-change entry — the rendering of the
`PriceChanged` event with `deltaAbs = new - old`,
`deltaPercent = (deltaAbs/old)*100` for `old > 0` (else 0) and direction
`up` iff the delta is positive — followed only by the possible availability
entry, and appends `(new, now)` to the price history. -/
theorem checkProduct_price_event (now : String) (p : TrackedProduct) (r : ItemRecord)
    (lp cp : Int) (hlp : p.last_price = some lp) (hcp : r.price = some cp)
    (hne : cp ≠ lp) :
    (checkProduct now p (some r)).2 =
      eventText (specPriceEvent lp cp) ::
        (match p.last_availability with
         | some la => if r.availability ≠ la then [availChangeText la r.availability] else []
         | none => [])
    ∧ (specPriceEvent lp cp).deltaAbs = cp - lp
    ∧ (specPriceEvent lp cp).deltaPercent =
        (if 0 < lp then ((cp - lp : Int) : ℚ) / (lp : ℚ) * 100 else 0)
    ∧ (specPriceEvent lp cp).direction =
        (if 0 < cp - lp then Direction.up else Direction.down)
    ∧ (checkProduct now p (some r)).1.price_history =
        p.price_history ++ [{ price := some cp, timestamp := now }] := by
  refine ⟨?_, rfl, rfl, rfl, ?_⟩
  · simp only [checkProduct, detectChangeStrings, hlp, hcp, if_pos hne,
      eventText_specPriceEvent, List.singleton_append]
  · simp only [checkProduct, detectChangeStrings, hlp, hcp, priceFires, if_pos hne,
      decide_eq_true_eq]
    split <;> rfl

/-- Fixture: a tracked product last seen at price 1000, in stock. -/
def prod1000 : TrackedProduct where
  asin := "A1"
  name := "N"
  url := "https://www.amazon.co.jp/dp/A1?tag=tg"
  last_price := some 1000
  last_availability := some "在庫あり"
  last_checked := "T1"
  price_history := [{ price := some 1000, timestamp := "T1" }]

/-- Fixture: a fresh record at price 800, in stock. -/
def rec800 : ItemRecord where
  title := "N"
  price := some 800
  availability := "在庫あり"
  detail_page_url := "https://www.amazon.co.jp/dp/A1"

/-- Witness for `checkProduct_price_event`: `old=1000, new=800` gives exactly
the `deltaAbs=-200, deltaPercent=-20, direction=down` event and appends
`(800, now)` to the history. -/
theorem checkProduct_price_event_witness :
    (checkProduct "T2" prod1000 (some rec800)).2 = [eventText (specPriceEvent 1000 800)]
    ∧ (specPriceEvent 1000 800).deltaAbs = -200
    ∧ (specPriceEvent 1000 800).deltaPercent = -20
    ∧ (specPriceEvent 1000 800).direction = Direction.down
    ∧ (checkProduct "T2" prod1000 (some rec800)).1.price_history =
        [{ price := some 1000, timestamp := "T1" }, { price := some 800, timestamp := "T2" }] := by
  have h := checkProduct_price_event "T2" prod1000 rec800 1000 800 rfl rfl (by decide)
  refine ⟨?_, h.2.1, ?_, ?_, ?_⟩
  · rw [h.1]
    rfl
  · rw [h.2.2.1]
    norm_num
  · rw [h.2.2.2.1]
    rfl
  · rw [h.2.2.2.2]
    rfl

/-- C5: a lookup miss, or a cycle with no change event (fresh price equal or
either price absent, and fresh availability equal or prior availability
absent), leaves the product's entire state — `last_price`,
`last_availability`, `last_checked` and `price_history` — untouched and
produces no change entry. -/
theorem checkProduct_frame (now : String) (p : TrackedProduct) :
    checkProduct now p none = (p, [])
    ∧ ∀ r : ItemRecord,
        (r.price = none ∨ p.last_price = none ∨ r.price = p.last_price) →
        (p.last_availability = none ∨ p.last_availability = some r.availability) →
        checkProduct now p (some r) = (p, []) := by
  refine ⟨rfl, ?_⟩
  intro r hp ha
  have hchanges :
      detectChangeStrings p.last_price p.last_availability r.price r.availability = [] := by
    unfold detectChangeStrings
    have h1 :
        (match r.price, p.last_price with
         | some cp, some lp => if cp ≠ lp then [priceChangeText cp lp] else []
         | _, _ => ([] : List String)) = [] := by
      rcases hp with h | h | h
      · rw [h]
        all_goals cases p.last_price <;> rfl
      · rw [h]
        all_goals cases r.price <;> rfl
      · rw [h]
        all_goals
          cases p.last_price with
          | none => rfl
          | some v => simp
    have h2 :
        (match p.last_availability with
         | some la => if r.availability ≠ la then [availChangeText la r.availability] else []
         | none => ([] : List String)) = [] := by
      rcases ha with h | h
      · rw [h]
      · rw [h]
        simp
    rw [h1, h2]
    rfl
  have hfires : priceFires r.price p.last_price = false := by
    unfold priceFires
    rcases hp with h | h | h
    · rw [h]
      all_goals cases p.last_price <;> rfl
    · rw [h]
      all_goals cases r.price <;> rfl
    · rw [h]
      all_goals
        cases p.last_price with
        | none => rfl
        | some v => simp
  simp [checkProduct, hchanges, hfires]

/-- Fixture: a fresh record at the unchanged price 1000, in stock. -/
def rec1000 : ItemRecord where
  title := "N"
  price := some 1000
  availability := "在庫あり"
  detail_page_url := "https://www.amazon.co.jp/dp/A1"

/-- Witness for `checkProduct_frame`: `old=1000, new=1000` with unchanged
availability produces no event, no history append, and no state change; so
does a lookup miss. -/
theorem checkProduct_frame_witness :
    checkProduct "T2" prod1000 none = (prod1000, [])
    ∧ checkProduct "T2" prod1000 (some rec1000) = (prod1000, []) := by
  have h := checkProduct_frame "T2" prod1000
  exact ⟨h.1, h.2 rec1000 (Or.inr (Or.inr rfl)) (Or.inr rfl)⟩

/-! ## C6: template selection -/

theorem round1num_ge_iff {q : ℚ} (hq : 0 ≤ q) :
    100 ≤ round1num q ↔ 199 / 20 ≤ q := by
  rw [round1num_eq_floor]
  have hfl : (0 : ℤ) ≤ ⌊q * 10 + 1 / 2⌋ := Int.floor_nonneg.mpr (by linarith)
  rw [Int.le_toNat hfl, Int.le_floor]
  constructor <;> intro h <;> [linarith [show ((100 : ℤ) : ℚ) = 100 from by norm_cast];
    (push_cast; linarith)]

theorem qualifiesFlash_priceText (cp lp : Int) :
    qualifiesFlash (priceChangeText cp lp) =
      (decide (¬ 0 < cp - lp) && decide (100 ≤ round1num |priceChangePercent cp lp|)) := by
  unfold qualifiesFlash
  rw [priceText_contains_marker, searchPercent_priceChangeText]
  by_cases hdir : 0 < cp - lp
  · rw [priceText_up_not_down hdir]
    simp [hdir]
  · rw [priceText_down_contains_down hdir]
    simp only [Bool.true_and]
    rw [parsePointQ_fmt1]
    have h10 : (10 : ℚ) ≤ (round1num |priceChangePercent cp lp| : ℚ) / 10 ↔
        100 ≤ round1num |priceChangePercent cp lp| := by
      rw [le_div_iff (by norm_num)]
      constructor <;> intro h
      · exact_mod_cast (by linarith : (100 : ℚ) ≤ (round1num |priceChangePercent cp lp| : ℚ))
      · have : (100 : ℚ) ≤ (round1num |priceChangePercent cp lp| : ℚ) := by exact_mod_cast h
        linarith
    simp [hdir, h10]

theorem qualifiesFlash_availText (la ca : String)
    (h : pyContains (availChangeText la ca).data priceMarker = false) :
    qualifiesFlash (availChangeText la ca) = false := by
  unfold qualifiesFlash
  rw [h]
  simp

/-- C6 amended: the selector escalates to `"flash_sale"` iff the price event
is a drop whose re-parsed one-decimal percent is at least 10.0 — that is, iff
`|deltaPercent| ≥ 9.95`, not `≥ 10.0` as the original claim has it (the
threshold is applied to the text-rounded value); and an unregistered selected
name falls back to the `"default"` template content.  (The availability
statuses are assumed not to smuggle in the `価格変動` marker.) -/
theorem selectTemplateName_flash_iff (lp cp : Int) (lastA : Option String) (ca : String)
    (hb : ∀ la, lastA = some la →
      pyContains (availChangeText la ca).data priceMarker = false) :
    (selectTemplateName (detectChangeStrings (some lp) lastA (some cp) ca) = "flash_sale" ↔
      cp ≠ lp ∧ cp - lp < 0 ∧ 199 / 20 ≤ |priceChangePercent cp lp|)
    ∧ (∀ (store : List (String × PostTemplate)) (d : PostTemplate) (nm : String),
        lookupTemplate store "default" = some d → lookupTemplate store nm = none →
        resolveTemplate store nm = d) := by
  constructor
  · have havail : ∀ c ∈ (match lastA with
        | some la => if ca ≠ la then [availChangeText la ca] else []
        | none => ([] : List String)), qualifiesFlash c = false ∧
          pyContains c.data priceMarker = false := by
      intro c hc
      cases lastA with
      | none => simp at hc
      | some la =>
        have hc2 : c ∈ (if ca ≠ la then [availChangeText la ca] else ([] : List String)) := hc
        by_cases hne : ca ≠ la
        · rw [if_pos hne] at hc2
          simp at hc2
          subst hc2
          exact ⟨qualifiesFlash_availText la ca (hb la rfl), hb la rfl⟩
        · rw [if_neg hne] at hc2
          simp at hc2
    by_cases hne : cp ≠ lp
    · have hchanges : detectChangeStrings (some lp) lastA (some cp) ca =
          priceChangeText cp lp ::
            (match lastA with
             | some la => if ca ≠ la then [availChangeText la ca] else []
             | none => []) := by
        simp [detectChangeStrings, if_pos hne]
      rw [hchanges]
      unfold selectTemplateName
      rw [if_pos]
      · have hq : (priceChangeText cp lp ::
            (match lastA with
             | some la => if ca ≠ la then [availChangeText la ca] else []
             | none => [])).any qualifiesFlash =
            qualifiesFlash (priceChangeText cp lp) := by
          rw [List.any_cons]
          have : (match lastA with
              | some la => if ca ≠ la then [availChangeText la ca] else []
              | none => ([] : List String)).any qualifiesFlash = false := by
            rw [List.any_eq_false]
            intro c hc
            simp [(havail c hc).1]
          rw [this]
          simp
        rw [hq, qualifiesFlash_priceText]
        by_cases hcond : ¬ 0 < cp - lp ∧ 100 ≤ round1num |priceChangePercent cp lp|
        · rw [if_pos (by simp [hcond.1, hcond.2])]
          simp only [true_iff]
          exact ⟨hne, by omega, (round1num_ge_iff (abs_nonneg _)).mp hcond.2⟩
        · rw [if_neg (by
            intro hcontra
            simp only [Bool.and_eq_true, decide_eq_true_eq] at hcontra
            exact hcond hcontra)]
          constructor
          · intro h
            exact absurd h (by decide)
          · intro h
            exact absurd ⟨by omega, (round1num_ge_iff (abs_nonneg _)).mpr h.2.2⟩ hcond
      · rw [List.any_cons]
        simp [priceText_contains_marker]
    · have hchanges : detectChangeStrings (some lp) lastA (some cp) ca =
          (match lastA with
           | some la => if ca ≠ la then [availChangeText la ca] else []
           | none => []) := by
        simp [detectChangeStrings, hne]
      rw [hchanges]
      unfold selectTemplateName
      have hgate : (match lastA with
          | some la => if ca ≠ la then [availChangeText la ca] else []
          | none => ([] : List String)).any (fun c => pyContains c.data priceMarker) =
          false := by
        rw [List.any_eq_false]
        intro c hc
        simp [(havail c hc).2]
      rw [hgate]
      simp only [Bool.false_eq_true, if_false]
      constructor
      · intro h
        exact absurd h (by decide)
      · intro h
        exact absurd h.1 hne
  · intro store d nm hd hnm
    unfold resolveTemplate
    rw [hnm, hd]
    rfl

/-- C6 counterexample: `old=10000, new=9004` is a 9.96% drop — strictly below
the claimed 10% threshold — yet the selector escalates to `"flash_sale"`,
because the threshold is compared against the one-decimal-rounded text
(`"10.0"`). -/
theorem selectTemplate_rounding_counterexample :
    selectTemplateName (detectChangeStrings (some 10000) none (some 9004) "在庫あり") =
      "flash_sale"
    ∧ (specPriceEvent 10000 9004).direction = Direction.down
    ∧ |(specPriceEvent 10000 9004).deltaPercent| < 10 := by
  refine ⟨by decide, rfl, ?_⟩
  show |(if (0 : ℤ) < 10000 then ((9004 - 10000 : ℤ) : ℚ) / ((10000 : ℤ) : ℚ) * 100 else 0)| <
    10
  rw [if_pos (by norm_num), abs_lt]
  constructor <;> push_cast <;> linarith

/-- Witness for `selectTemplateName_flash_iff`: a 5% drop (`old=1000,
new=950`) does not escalate, and an unregistered template name resolves to
the `"default"` content. -/
theorem selectTemplateName_flash_iff_witness :
    ¬ selectTemplateName (detectChangeStrings (some 1000) none (some 950) "在庫あり") =
      "flash_sale"
    ∧ resolveTemplate builtinTemplates "seasonal" = defaultTemplate := by
  have h := selectTemplateName_flash_iff 1000 950 none "在庫あり" (fun la hla => by cases hla)
  constructor
  · intro hc
    have hr := (h.1.mp hc).2.2
    have habs : |priceChangePercent 950 1000| = 5 := by
      unfold priceChangePercent
      rw [if_pos (by norm_num)]
      rw [show ((950 - 1000 : ℤ) : ℚ) = -50 from by push_cast; norm_num]
      rw [show (-50 : ℚ) / ((1000 : ℤ) : ℚ) * 100 = -5 from by push_cast; ring_nf]
      norm_num
    rw [habs] at hr
    norm_num at hr
  · exact h.2 builtinTemplates defaultTemplate "seasonal"
      (by simp [lookupTemplate, builtinTemplates, List.find?])
      (by simp [lookupTemplate, builtinTemplates, List.find?])

/-! ## C7: the 280-character bound and the truncation order -/

theorem strTake_length (s : String) (n : Nat) : (strTake s n).length = min n s.length := by
  show (s.data.take n).length = min n s.data.length
  exact List.length_take n s.data

theorem hardTrunc_le (s : String) : (hardTruncStep s).length ≤ 280 := by
  unfold hardTruncStep
  by_cases h : 280 < s.length
  · rw [if_pos h, String.length_append, strTake_length, Nat.min_eq_left (by omega)]
    decide
  · rw [if_neg h]
    omega

/-- C7: the rendered post never exceeds 280 characters, and the adjustment is
exactly the two-step order the spec prescribes: first (when over 280) the
product name is truncated to `max 10 (nameLen - (bodyLen - 270))` characters
plus an ellipsis and re-substituted; then (when still over 280) the body is
hard-truncated to its first 277 characters plus a 3-character ellipsis,
exactly 280 characters. -/
theorem renderPost_length_bound :
    (∀ store tag p changes, (post_to_twitter_text store tag p changes).length ≤ 280)
    ∧ (∀ name post : String, adjustLength name post = hardTruncStep (nameShrinkStep name post))
    ∧ (∀ name post : String, 280 < post.length →
        nameShrinkStep name post =
          pyReplaceStr post name
            (strTake name (max 10 (name.length - (post.length - 270))) ++ "..."))
    ∧ (∀ post : String, 280 < post.length →
        hardTruncStep post = strTake post 277 ++ "..." ∧ (hardTruncStep post).length = 280)
    ∧ (∀ name post : String, post.length ≤ 280 → nameShrinkStep name post = post) := by
  refine ⟨?_, fun _ _ => rfl, ?_, ?_, ?_⟩
  · intro store tag p changes
    unfold post_to_twitter_text adjustLength
    exact hardTrunc_le _
  · intro name post h
    unfold nameShrinkStep
    rw [if_pos h]
  · intro post h
    unfold hardTruncStep
    rw [if_pos h]
    refine ⟨rfl, ?_⟩
    rw [String.length_append, strTake_length, Nat.min_eq_left (by omega)]
    decide
  · intro name post h
    unfold nameShrinkStep
    rw [if_neg (by omega)]

/-- Fixture: a tracked product with a 300-character name. -/
def prodLongName : TrackedProduct where
  asin := "A1"
  name := String.mk (List.replicate 300 'あ')
  url := "https://ex.com/p"
  last_price := some 800
  last_availability := some "在庫あり"
  last_checked := "T1"
  price_history := [{ price := some 1000, timestamp := "T1" }]

/-- Witness for `renderPost_length_bound`: a product name of length 300 still
renders within 280 characters, and a 300-character body hard-truncates to
exactly 280. -/
theorem renderPost_length_bound_witness :
    (post_to_twitter_text builtinTemplates none prodLongName
      ["価格変動: ⬇️ 200円下落 (20.0%)"]).length ≤ 280
    ∧ (hardTruncStep (String.mk (List.replicate 300 'x'))).length = 280 := by
  refine ⟨renderPost_length_bound.1 _ _ _ _, (renderPost_length_bound.2.2.2.1 _ ?_).2⟩
  show 280 < (List.replicate 300 'x').length
  rw [List.length_replicate]
  omega

/-! ## C10: the current-price line under Python truthiness -/

/-- C10: the renderer's current-price block appears iff the stored price is
present and nonzero — a price of exactly `0` is falsy in Python and renders
exactly like an absent price. -/
theorem currentPrice_line_iff :
    (∀ t name changes url,
      buildBody t name changes (some 0) url = buildBody t name changes none url)
    ∧ (∀ t name changes url (pr : Int), pr ≠ 0 →
        buildBody t name changes (some pr) url =
          bodyChanges t name changes ++ ("\n" ++ t.current_price pr ++ "\n") ++
            footerPart t ++ "\n" ++ url)
    ∧ (∀ t name changes url,
        buildBody t name changes none url =
          bodyChanges t name changes ++ "" ++ footerPart t ++ "\n" ++ url) := by
  refine ⟨fun t name changes url => rfl, ?_, fun t name changes url => rfl⟩
  intro t name changes url pr h
  unfold buildBody currentPricePart pyTruthyInt
  rw [if_pos (by simp [h])]
  rfl

/-- Witness for `currentPrice_line_iff` at a concrete nonzero price. -/
theorem currentPrice_line_iff_witness :
    buildBody defaultTemplate "N" [] (some 0) "u" = buildBody defaultTemplate "N" [] none "u"
    ∧ buildBody defaultTemplate "N" [] (some 800) "u" =
        bodyChanges defaultTemplate "N" [] ++
          ("\n" ++ defaultTemplate.current_price 800 ++ "\n") ++
          footerPart defaultTemplate ++ "\n" ++ "u" :=
  ⟨currentPrice_line_iff.1 defaultTemplate "N" [] "u",
   currentPrice_line_iff.2.1 defaultTemplate "N" [] "u" 800 (by decide)⟩

/-! ## C8: one interpolated line per event -/

theorem strAppend_empty (s : String) : s ++ "" = s := by
  apply String.ext
  rw [String.data_append]
  show s.data ++ [] = s.data
  exact List.append_nil _

/-- C8 amended: for the change lists the detector actually produces, the body
is built in construction order — title line, name, blank line, then one
formatted line per event, then current price, footer and URL — and the price
line interpolates `diff = |new - old|` (provided `|new - old| ≤ 999,999`; the
re-parsing regex drops leading digit groups beyond one comma) and
`percent = |deltaPercent|` rounded to one decimal, while the availability
line interpolates the two statuses (provided they contain no newline, no
`" → "`, and no `価格変動` marker). -/
theorem buildBody_per_event (t : PostTemplate) (name url : String) (cur : Option Int)
    (lp cp : Int) (la ca : String)
    (hd : (cp - lp).natAbs ≤ 999999)
    (hm : pyContains (availChangeText la ca).data priceMarker = false)
    (hla : ∀ c ∈ la.data, c ≠ '\n') (hca : ∀ c ∈ ca.data, c ≠ '\n')
    (hN1 : splitLastArrow ca.data = none)
    (hN2 : (['→', ' '].isPrefixOf ca.data) = false) :
    buildBody t name (detectChangeStrings (some lp) (some la) (some cp) ca) cur url =
      bodyInit t name ++
        (if cp ≠ lp then
          "・" ++ (if 0 < cp - lp then
              t.price_up (cp - lp).natAbs ((round1num |priceChangePercent cp lp| : ℚ) / 10)
            else
              t.price_down (cp - lp).natAbs
                ((round1num |priceChangePercent cp lp| : ℚ) / 10)) ++ "\n"
         else "") ++
        (if ca ≠ la then "・" ++ t.availability_change la ca ++ "\n" else "") ++
        currentPricePart t cur ++ footerPart t ++ "\n" ++ url := by
  have hrp := renderChange_priceText t cp lp hd
  have hra := renderChange_availText t la ca hm hla hca hN1 hN2
  unfold buildBody bodyChanges detectChangeStrings
  by_cases hne : cp ≠ lp
  · by_cases hav : ca ≠ la
    · simp only [if_pos hne, if_pos hav, List.cons_append, List.nil_append, List.foldl_cons,
        List.foldl_nil, hrp, hra]
    · simp only [if_pos hne, if_neg hav, List.cons_append, List.nil_append, List.append_nil,
        List.foldl_cons, List.foldl_nil, hrp]
      rw [strAppend_empty]
  · by_cases hav : ca ≠ la
    · simp only [if_neg hne, if_pos hav, List.cons_append, List.nil_append, List.foldl_cons,
        List.foldl_nil, hra]
      rw [strAppend_empty]
    · simp only [if_neg hne, if_neg hav, List.nil_append, List.append_nil, List.foldl_nil]
      rw [strAppend_empty, strAppend_empty]

/-- C8 counterexample: a drop of 1,234,567 yen renders a line whose
interpolated diff is 234,567 — the regex `(\d+,?\d*)` captures only the part
of the comma-grouped number after its first digit group — so the line does
not interpolate the event's absolute delta for every magnitude. -/
theorem render_bigdiff_counterexample :
    renderChange defaultTemplate (priceChangeText 1 1234568) =
      "・⬇️ 234,567円下落 (100.0%)\n"
    ∧ ((1 : ℤ) - 1234568).natAbs = 1234567
    ∧ downDiffOf (priceChangeText 1 1234568).data = some 234567
    ∧ (234567 : ℕ) ≠ 1234567 :=
  ⟨by decide, by decide, by decide, by decide⟩

/-- Witness for `buildBody_per_event`: a 5% drop with an availability change
renders the title, name, both interpolated lines, the current price and the
URL. -/
theorem buildBody_per_event_witness :
    buildBody defaultTemplate "N"
      (detectChangeStrings (some 1000) (some "在庫あり") (some 950) "残りわずか") (some 950)
      "u" =
      bodyInit defaultTemplate "N" ++
        (if (950 : ℤ) ≠ 1000 then
          "・" ++ (if (0 : ℤ) < 950 - 1000 then
              defaultTemplate.price_up ((950 - 1000 : ℤ)).natAbs
                ((round1num |priceChangePercent 950 1000| : ℚ) / 10)
            else
              defaultTemplate.price_down ((950 - 1000 : ℤ)).natAbs
                ((round1num |priceChangePercent 950 1000| : ℚ) / 10)) ++ "\n"
         else "") ++
        (if "残りわずか" ≠ "在庫あり" then
          "・" ++ defaultTemplate.availability_change "在庫あり" "残りわずか" ++ "\n"
         else "") ++
        currentPricePart defaultTemplate (some 950) ++ footerPart defaultTemplate ++ "\n" ++
        "u" :=
  buildBody_per_event defaultTemplate "N" "u" (some 950) 1000 950 "在庫あり" "残りわずか"
    (by decide) (by decide) (by decide) (by decide) (by decide) (by decide)

/-! ## C9: adding an already-tracked product -/

/-- C9 amended: the store is a list, not a mapping: `add_product` appends
unconditionally, so the new id is simply appended to the id sequence and its
occurrence count always grows by one — adding an already-tracked id creates
a second entry for it. -/
theorem add_product_appends (tag : Option String) (now : String)
    (products : List TrackedProduct) (asin : String) (info : ItemRecord) :
    (add_product tag now products asin info).map TrackedProduct.asin =
      products.map TrackedProduct.asin ++ [asin]
    ∧ (add_product tag now products asin info).countP (fun p => p.asin == asin) =
      products.countP (fun p => p.asin == asin) + 1 := by
  constructor
  · simp [add_product, add_product_record]
  · simp [add_product, add_product_record, List.countP_append, List.countP_cons]

/-- C9 counterexample: adding the already-tracked id `"A1"` yields a store in
which `"A1"` occurs twice — the claimed at-most-once invariant fails. -/
theorem add_product_duplicate_counterexample :
    (add_product none "T2" [prod1000] "A1" rec800).map TrackedProduct.asin = ["A1", "A1"]
    ∧ 1 < (add_product none "T2" [prod1000] "A1" rec800).countP (fun p => p.asin == "A1") := by
  constructor <;> decide

/-! ## C3: parser tolerance of missing substructures -/

theorem firstListing_none {item : Json} (h : item.getKey "Offers" = none) :
    firstListing item = none := by
  unfold firstListing
  rw [h]
  rfl

/-- C3 amended: the parser is total over missing substructures: an absent
top-level container yields the empty mapping; the batch is a fold of
independent per-item parses; an item with no `Offers` still parses, with
`price = none` and the `"不明"` availability sentinel; and a present decimal
amount is truncated toward zero — which is the floor for nonnegative
amounts, but not for negative ones as the original claim has it. -/
theorem parse_missing_fields (tag : Option String) :
    (∀ response : Json, response.getKey "ItemsResult" = none →
      parse_pa_api_response tag response = [])
    ∧ (∀ items : List Json,
        parse_pa_api_response tag
          (Json.obj [("ItemsResult", Json.obj [("Items", Json.arr items)])]) =
        items.foldl
          (fun acc item =>
            match parseItem tag item with
            | some (a, r) => dictInsert acc a r
            | none => acc) [])
    ∧ (∀ (item : Json) (a : String), item.getKey "ASIN" = some (.str a) → a ≠ "" →
        item.getKey "Offers" = none →
        parseItem tag item = some (a,
          { title := titleOf item, price := none, availability := "不明",
            detail_page_url := urlOf tag a item }))
    ∧ (∀ (item : Json) (q : ℚ),
        ((firstListing item).bind (fun l => l.getKey "Price")).bind
          (fun p => p.getKey "Amount") = some (.num q) →
        priceOf item = some (pyTruncQ q) ∧ (0 ≤ q → pyTruncQ q = ⌊q⌋)) := by
  refine ⟨?_, ?_, ?_, ?_⟩
  · intro response h
    unfold parse_pa_api_response
    rw [h]
    split <;> rfl
  · intro items
    rfl
  · intro item a hA ha hOff
    have hp : priceOf item = none := by
      unfold priceOf
      rw [firstListing_none hOff]
      rfl
    have hav : availabilityOf item = "不明" := by
      unfold availabilityOf
      rw [firstListing_none hOff]
      rfl
    simp only [parseItem, hA, if_neg ha, hp, hav]
  · intro item q h
    unfold priceOf
    rw [h]
    refine ⟨rfl, fun hq => ?_⟩
    unfold pyTruncQ
    rw [if_pos hq, ratFloor_eq]

/-- Fixture: an item whose `Offers` subtree is entirely absent. -/
def itemNoOffers : Json :=
  Json.obj [("ASIN", Json.str "B1"),
    ("ItemInfo", Json.obj [("Title", Json.obj [("DisplayValue", Json.str "本A")])])]

/-- Fixture: a complete item. -/
def itemFull : Json :=
  Json.obj [("ASIN", Json.str "B2"),
    ("Offers", Json.obj [("Listings", Json.arr
      [Json.obj [("Price", Json.obj [("Amount", Json.num 3980)]),
        ("Availability", Json.obj [("Message", Json.str "在庫あり")])]])])]

/-- Fixture: a two-item batch, the first missing `Offers`. -/
def twoItemDoc : Json :=
  Json.obj [("ItemsResult", Json.obj [("Items", Json.arr [itemNoOffers, itemFull])])]

/-- Witness for `parse_missing_fields`: an absent container gives the empty
mapping, the Offers-less item parses to `price = none` and the unknown
sentinel, and the other item of the same batch is still parsed. -/
theorem parse_missing_fields_witness :
    parse_pa_api_response none (Json.obj [("Other", Json.null)]) = []
    ∧ parseItem none itemNoOffers = some ("B1",
        { title := titleOf itemNoOffers, price := none, availability := "不明",
          detail_page_url := urlOf none "B1" itemNoOffers })
    ∧ (parse_pa_api_response none twoItemDoc).map Prod.fst = ["B1", "B2"]
    ∧ titleOf itemNoOffers = "本A" := by
  refine ⟨(parse_missing_fields none).1 _ rfl,
    (parse_missing_fields none).2.2.1 itemNoOffers "B1" rfl (by decide) rfl, ?_, ?_⟩
  · decide
  · decide

/-- Fixture: an item whose price amount is the negative decimal `-3/2`. -/
def itemNegAmount : Json :=
  Json.obj [("ASIN", Json.str "B3"),
    ("Offers", Json.obj [("Listings", Json.arr
      [Json.obj [("Price", Json.obj [("Amount", Json.num (-3/2))])]])])]

/-- C3 counterexample: a present decimal amount of `-1.5` parses to `-1`
(truncation toward zero, `int(float(...))`), not to the floor `-2` the claim
prescribes. -/
theorem parse_trunc_counterexample :
    priceOf itemNegAmount = some (-1)
    ∧ (⌊(-3/2 : ℚ)⌋ : ℤ) = -2
    ∧ priceOf itemNegAmount ≠ some ⌊(-3/2 : ℚ)⌋ := by
  have hfloor : (⌊(-3/2 : ℚ)⌋ : ℤ) = -2 := by
    rw [Int.floor_eq_iff]
    constructor <;> norm_num
  have hp : priceOf itemNegAmount = some (-1) := by decide
  refine ⟨hp, hfloor, ?_⟩
  rw [hp, hfloor]
  decide

end AmazonTracker
